import Mathlib

/-!
Verification of the cloud-sync core of the Azimuth note-taking app
(`src/src-tauri/src/lib.rs`): the four provider sync functions
(`sync_to_s3`, `sync_to_dropbox`, `sync_to_onedrive`, `sync_to_google_drive`),
conflict resolution (`resolve_conflict`) and sync-config persistence
(`save_sync_config` / `load_sync_config`).

Modelling conventions:
- A filesystem path is a list of components (`List String`); the local tree
  under the sync root is a finite association list from relative path to byte
  content.  Bytes are `List Nat`.
- Network I/O is modelled by a remote store (the objects the provider holds)
  plus a fault oracle saying, per operation, whether the transport fails
  (aborting with an error string, as every `.map_err(|e| e.to_string())?`
  in the source does) and whether the HTTP response has a success status
  (the source checks `response.status().is_success()`).
- Hashing (`get_file_hash`, SHA-256 hex) and the S3-assigned ETag are opaque
  functions passed as parameters; the source only compares their outputs
  for string equality.
-/

namespace Azimuth

/-- Byte content of a file. -/
abbrev ByteSeq := List Nat

/-- A path relative to the sync root, as a list of components. -/
abbrev RelPath := List String

/-- The local tree under the sync root: association list path ↦ bytes.
Earlier entries shadow later ones (lookup is first-match). -/
abbrev LocalFS := List (RelPath × ByteSeq)

/-- Look a path up in the local tree (first match). -/
def fsGet (p : RelPath) : LocalFS → Option ByteSeq
  | [] => none
  | e :: rest => if e.1 = p then some e.2 else fsGet p rest

/-- `Path::exists()` for the modelled tree. -/
def fsExists (p : RelPath) (fs : LocalFS) : Bool := (fsGet p fs).isSome

/-- Drop every entry stored at path `p`. -/
def dropKey (p : RelPath) : LocalFS → LocalFS
  | [] => []
  | e :: rest => if e.1 = p then dropKey p rest else e :: dropKey p rest

/-- `fs::write` (create or overwrite): drop any entry at `p`, add the new one.
Directory creation (`fs::create_dir_all`) needs no separate model step since
paths are component lists. -/
def fsWrite (p : RelPath) (b : ByteSeq) (fs : LocalFS) : LocalFS :=
  (p, b) :: dropKey p fs

/-- `fs::remove_file`. -/
def fsRemove (p : RelPath) (fs : LocalFS) : LocalFS := dropKey p fs

/-- `fs::rename src dst` (move, overwriting `dst`); identity when `src` is
absent (the source only calls it after an existence check). -/
def fsRename (src dst : RelPath) (fs : LocalFS) : LocalFS :=
  match fsGet src fs with
  | some b => fsWrite dst b (fsRemove src fs)
  | none => fs

/-- `file_name().to_string_lossy()` of a relative path: its last component
(`""` for the degenerate empty path, which never denotes a file). -/
def lastName (p : RelPath) : String := p.getLastD ""

/-- The hidden-entry test the source applies to every walked file:
`path.file_name().map(|n| n.to_string_lossy().starts_with('.')).unwrap_or(false)`.
Only the file's own name is inspected, never the directory components. -/
def hiddenName (s : String) : Bool := s.data.head? = some '.'

/-- A walked file is skipped iff its file name starts with `'.'`. -/
def hiddenFile (p : RelPath) : Bool := hiddenName (lastName p)

/-! ### Path strings

The source converts between path strings with `/` separators and paths
(`strip_prefix` + `to_string_lossy` to produce a relative string;
`base_path.join(relative)` to resolve one).  We model the string side with
an explicit split/join on `'/'` over the character lists of `String`. -/

/-- Prepend a character to the first chunk. -/
def consHead (c : Char) : List (List Char) → List (List Char)
  | [] => [[c]]
  | g :: gs => (c :: g) :: gs

/-- Split a character list on a separator; always returns at least one chunk,
mirroring how joining path components with `/` is undone. -/
def chunks (sep : Char) : List Char → List (List Char)
  | [] => [[]]
  | c :: rest =>
    if c = sep then [] :: chunks sep rest else consHead c (chunks sep rest)

/-- Interleave a separator between chunks (inverse of `chunks`). -/
def joinChunks (sep : Char) : List (List Char) → List Char
  | [] => []
  | [g] => g
  | g :: gs => g ++ sep :: joinChunks sep gs

/-- `base_path.join(relative)` relative part: split a `/`-separated string
into path components. -/
def splitSlash (s : String) : RelPath := (chunks '/' s.data).map String.mk

/-- `strip_prefix(&base_path)…to_string_lossy()`: join path components with
`/` (the normalized separator). -/
def joinSlash (p : RelPath) : String := String.mk (joinChunks '/' (p.map String.data))

/-! ### File-name stem and extension (Rust `Path::file_stem` / `extension`)

Rust splits a file name at its last `.`, except that a leading dot (hidden
file with no other dot) does not count as a separator: `"a.md"` ↦
(`"a"`, some `"md"`), `".gitignore"` ↦ (`".gitignore"`, none). -/

/-- `(file_stem, extension)` of a file name, Rust semantics. -/
def splitName (name : String) : String × Option String :=
  let cs := name.data
  match (((List.range cs.length).filter (fun i => cs.getD i ' ' = '.')).getLast?) with
  | none => (name, none)
  | some i =>
    if i = 0 then (name, none)
    else (String.mk (cs.take i), some (String.mk (cs.drop (i + 1))))

/-- `file_path.with_extension("conflict")`: replace the extension (drop the
old one, append `.conflict`). -/
def conflictName (name : String) : String := (splitName name).1 ++ ".conflict"

/-- The `keep_both` target name: `format!("{}_conflict.{}", stem, ext)` where
`ext` is the extension or `""` (`unwrap_or_default`). -/
def keepBothName (name : String) : String :=
  (splitName name).1 ++ "_conflict." ++ ((splitName name).2.getD "")

/-- Replace the last component of a path (`with_file_name` /
`with_extension` keep the parent directory). -/
def withLastName (p : RelPath) (n : String) : RelPath := p.dropLast ++ [n]

/-! ### Data model records (from `lib.rs`) -/

/-- `SyncConflict` (lib.rs:98): a detected two-sided divergence. -/
structure SyncConflict where
  file_path : String
  local_modified : String
  remote_modified : String
  local_hash : String
  remote_hash : String
deriving Repr, DecidableEq

/-- `SyncStatus` (lib.rs:89): the outcome returned by a sync run. -/
structure SyncStatus where
  success : Bool
  message : String
  files_uploaded : Nat
  files_downloaded : Nat
  conflicts : List SyncConflict
deriving Repr, DecidableEq

/-- `ConflictResolution` (lib.rs:107).  `file_path` is relative to the base
path; we carry it already split into components. -/
structure ConflictResolution where
  file_path : RelPath
  resolution : String
deriving Repr, DecidableEq

/-! ### `resolve_conflict` (lib.rs:1191–1220)

The whole filesystem state is returned alongside the `Result`, so that
"leaves the filesystem unchanged" is expressible for the error case. -/

/-- Shallow embedding of `resolve_conflict`.  `base` is the base path's
components; the tree `fs` is rooted there. -/
def resolve_conflict (fs : LocalFS) (res : ConflictResolution) :
    LocalFS × Except String Unit :=
  let file_path := res.file_path
  let conflict_path := withLastName file_path (conflictName (lastName file_path))
  match res.resolution with
  | "keep_local" =>
    if fsExists conflict_path fs then (fsRemove conflict_path fs, .ok ()) else (fs, .ok ())
  | "keep_remote" =>
    if fsExists conflict_path fs then (fsRename conflict_path file_path fs, .ok ())
    else (fs, .ok ())
  | "keep_both" =>
    let new_path := withLastName file_path (keepBothName (lastName file_path))
    if fsExists conflict_path fs then (fsRename conflict_path new_path fs, .ok ())
    else (fs, .ok ())
  | _ => (fs, .error "Invalid resolution type")

/-! ### Sync-config persistence (lib.rs:39–44, 1222–1239)

`save_sync_config` serializes a `SyncConfig` with `serde_json::to_string_pretty`
into `.sync_config.json` under the base path; `load_sync_config` reads the file
back (returning `Ok(None)` when absent) and parses it with
`serde_json::from_str`.  We embed the JSON layer structurally: a config file
stores a JSON value, the derived `Serialize`/`Deserialize` impls become an
explicit encoder/decoder pair over that value, and serde_json's string
round-trip at the value level is taken as exact.  Numbers inside the opaque
`credentials` blob are modelled as integers. -/

/-- A `serde_json::Value`. -/
inductive JsonValue where
  | null : JsonValue
  | bool (b : Bool) : JsonValue
  | num (n : Int) : JsonValue
  | str (s : String) : JsonValue
  | arr (xs : List JsonValue) : JsonValue
  | obj (fields : List (String × JsonValue)) : JsonValue
deriving Repr

/-- `SyncConfig` (lib.rs:39): provider selection, enabled flag, opaque
credentials blob, optional last-sync timestamp. -/
structure SyncConfig where
  provider : String
  enabled : Bool
  credentials : JsonValue
  last_sync : Option String
deriving Repr

/-- What the derived `Serialize` impl writes for a `SyncConfig`. -/
def encodeSyncConfig (c : SyncConfig) : JsonValue :=
  .obj [("provider", .str c.provider),
        ("enabled", .bool c.enabled),
        ("credentials", c.credentials),
        ("last_sync", match c.last_sync with | some s => .str s | none => .null)]

/-- Field lookup inside a JSON object (first match, as serde does for the
first occurrence of a key). -/
def jsonField (k : String) : List (String × JsonValue) → Option JsonValue
  | [] => none
  | f :: rest => if f.1 = k then some f.2 else jsonField k rest

/-- What the derived `Deserialize` impl accepts as a `SyncConfig`:
an object with a string `provider`, a boolean `enabled`, any `credentials`
value, and a `last_sync` that is a string or null. -/
def decodeSyncConfig (v : JsonValue) : Option SyncConfig :=
  match v with
  | .obj fields =>
    match jsonField "provider" fields, jsonField "enabled" fields,
          jsonField "credentials" fields, jsonField "last_sync" fields with
    | some (.str p), some (.bool e), some cred, some ls =>
      match ls with
      | .null => some ⟨p, e, cred, none⟩
      | .str s => some ⟨p, e, cred, some s⟩
      | _ => none
    | _, _, _, _ => none
  | _ => none

/-- The store of config files: path ↦ stored JSON document. -/
abbrev ConfigFS := List (RelPath × JsonValue)

/-- Look up a stored document. -/
def cfgGet (p : RelPath) : ConfigFS → Option JsonValue
  | [] => none
  | e :: rest => if e.1 = p then some e.2 else cfgGet p rest

/-- Drop every stored document at path `p`. -/
def cfgDrop (p : RelPath) : ConfigFS → ConfigFS
  | [] => []
  | e :: rest => if e.1 = p then cfgDrop p rest else e :: cfgDrop p rest

/-- `save_sync_config` (lib.rs:1222): write the serialized config to
`<base>/.sync_config.json`. -/
def save_sync_config (fs : ConfigFS) (base : RelPath) (config : SyncConfig) : ConfigFS :=
  (base ++ [".sync_config.json"], encodeSyncConfig config) ::
    cfgDrop (base ++ [".sync_config.json"]) fs

/-- `load_sync_config` (lib.rs:1230): `Ok(None)` when the file is absent,
parse error otherwise surfaced as an error string. -/
def load_sync_config (fs : ConfigFS) (base : RelPath) : Except String (Option SyncConfig) :=
  match cfgGet (base ++ [".sync_config.json"]) fs with
  | none => .ok none
  | some v =>
    match decodeSyncConfig v with
    | some c => .ok (some c)
    | none => .error "parse error"

/-! ## The local scan shared by the sync functions

Every sync function walks the whole tree under the base path
(`WalkDir::new(&base_path)`, filtered to regular files) and skips an entry
iff its own file name starts with `'.'` (lib.rs:830, 932, 1034, 1155).
Local reads (`get_file_hash`, `fs::read`) are modelled as always succeeding
on files present in the modelled tree. -/

/-- The files a sync run's walk visits: everything except entries whose file
name starts with `'.'`. -/
def scanFiles : LocalFS → LocalFS
  | [] => []
  | f :: rest => if hiddenFile f.1 then scanFiles rest else f :: scanFiles rest

/-- The local manifest `local_files` built by `sync_to_s3` (lib.rs:823–841):
relative path string ↦ content hash (the modification-time string carried
alongside in the source never influences any decision and is omitted). -/
def localManifest (h : ByteSeq → String) (fs : LocalFS) : List (String × String) :=
  (scanFiles fs).map (fun f => (joinSlash f.1, h f.2))

/-! ## S3 (`sync_to_s3`, lib.rs:796–911)

The remote bucket holds objects `key ↦ (etag, bytes)`; `list_objects_v2`
returns every `(key, etag)` pair (the source stores the etag with its
surrounding quotes trimmed; the model's store holds the trimmed form).
`put_object` stores the bytes under the key with a provider-assigned etag
`etagOf bytes`.  The AWS SDK surfaces any non-success response as an `Err`,
so one fault oracle per operation suffices. -/

/-- One remote S3 object. -/
structure S3Object where
  key : String
  etag : String
  bytes : ByteSeq
deriving Repr, DecidableEq

/-- The remote bucket contents. -/
structure S3Remote where
  objects : List S3Object
deriving Repr, DecidableEq

/-- Fault oracle for the S3 run: `none` = the call succeeds, `some e` = the
call fails and the run aborts with message `e`. -/
structure S3Faults where
  listFail : Option String
  putFail : String → Option String
  getFail : String → Option String

/-- An S3 run with no network failures. -/
def s3NoFaults : S3Faults := ⟨none, fun _ => none, fun _ => none⟩

/-- Look an etag up in the listing snapshot (`remote_files.get(path)`). -/
def lookupTag (k : String) : List (String × String) → Option String
  | [] => none
  | e :: rest => if e.1 = k then some e.2 else lookupTag k rest

/-- Drop every remote object stored under key `k`. -/
def s3Drop (k : String) : List S3Object → List S3Object
  | [] => []
  | o :: rest => if o.key = k then s3Drop k rest else o :: s3Drop k rest

/-- `put_object`: store the bytes under the key, etag assigned by S3. -/
def s3Put (etagOf : ByteSeq → String) (k : String) (b : ByteSeq) (r : S3Remote) : S3Remote :=
  ⟨⟨k, etagOf b, b⟩ :: s3Drop k r.objects⟩

/-- `get_object` body bytes. -/
def s3Get (k : String) : List S3Object → Option ByteSeq
  | [] => none
  | o :: rest => if o.key = k then some o.bytes else s3Get k rest

/-- The upload decision of lib.rs:861–864: upload iff the key is absent from
the remote listing or the remote etag differs from the local hash. -/
def s3ShouldUpload (h : ByteSeq → String) (listing : List (String × String))
    (f : RelPath × ByteSeq) : Bool :=
  match lookupTag (joinSlash f.1) listing with
  | none => true
  | some etag => etag ≠ h f.2

/-- The S3 upload loop (lib.rs:859–880): for each manifest file, upload iff
`s3ShouldUpload`; a failed `put_object` aborts; each successful upload
increments the counter once. -/
def s3UploadLoop (h etagOf : ByteSeq → String) (flts : S3Faults)
    (listing : List (String × String)) :
    List (RelPath × ByteSeq) → S3Remote → Except String (Nat × S3Remote)
  | [], r => .ok (0, r)
  | f :: rest, r =>
    if s3ShouldUpload h listing f then
      match flts.putFail (joinSlash f.1) with
      | some e => .error e
      | none =>
        match s3UploadLoop h etagOf flts listing rest (s3Put etagOf (joinSlash f.1) f.2 r) with
        | .error e => .error e
        | .ok (n, r') => .ok (n + 1, r')
    else s3UploadLoop h etagOf flts listing rest r

/-- The S3 download loop (lib.rs:882–902): every listed key with no local
manifest record is fetched and written locally (parent directories created);
a failed `get_object` aborts; each download increments the counter once. -/
def s3DownloadLoop (flts : S3Faults) (r : S3Remote) (localKeys : List String) :
    List (String × String) → LocalFS → Except String (Nat × LocalFS)
  | [], fs => .ok (0, fs)
  | e :: rest, fs =>
    if localKeys.contains e.1 then s3DownloadLoop flts r localKeys rest fs
    else
      match flts.getFail e.1 with
      | some err => .error err
      | none =>
        match s3DownloadLoop flts r localKeys rest
            (fsWrite (splitSlash e.1) ((s3Get e.1 r.objects).getD []) fs) with
        | .error err => .error err
        | .ok (n, fs') => .ok (n + 1, fs')

/-- Shallow embedding of `sync_to_s3` (lib.rs:796–911): scan the local tree,
list the bucket (abort on failure), upload, download, and return the outcome
together with the final local tree and bucket. -/
def sync_to_s3 (h etagOf : ByteSeq → String) (flts : S3Faults)
    (fs : LocalFS) (r : S3Remote) :
    Except String (SyncStatus × LocalFS × S3Remote) :=
  match flts.listFail with
  | some e => .error e
  | none =>
    match s3UploadLoop h etagOf flts (r.objects.map (fun o => (o.key, o.etag)))
        (scanFiles fs) r with
    | .error e => .error e
    | .ok (u, r') =>
      match s3DownloadLoop flts r' ((scanFiles fs).map (fun f => joinSlash f.1))
          (r.objects.map (fun o => (o.key, o.etag))) fs with
      | .error e => .error e
      | .ok (d, fs') =>
        .ok ({ success := true,
               message := s!"Sync complete: {u} uploaded, {d} downloaded",
               files_uploaded := u, files_downloaded := d, conflicts := [] }, fs', r')

/-! ## Dropbox (`sync_to_dropbox`, lib.rs:913–1013)

The remote store holds `dropbox path ("/Azimuth/…") ↦ bytes`; the listing of
`/Azimuth` (recursive) returns each stored file's `path_display`.  Each HTTP
call has two failure modes, matching the source: a transport error
(`.map_err(|e| e.to_string())?`, aborting the run) and a response whose
status is not a success (which the source silently skips — the file is not
counted and the run continues; a non-success listing skips the whole
download phase and the run still returns a `SyncStatus`). -/

/-- The Dropbox `/Azimuth` folder contents. -/
structure DropboxRemote where
  files : List (String × ByteSeq)
deriving Repr, DecidableEq

/-- Fault oracle for a Dropbox run: per call, an optional transport error
and the success bit of the HTTP response status. -/
structure DropboxFaults where
  upFail : String → Option String
  upOk : String → Bool
  listFail : Option String
  listOk : Bool
  dlFail : String → Option String
  dlOk : String → Bool

/-- A Dropbox run in which every call succeeds with a success status. -/
def dbNoFaults : DropboxFaults :=
  ⟨fun _ => none, fun _ => true, none, true, fun _ => none, fun _ => true⟩

/-- Drop every remote file stored under Dropbox path `k`. -/
def dbDrop (k : String) : List (String × ByteSeq) → List (String × ByteSeq)
  | [] => []
  | e :: rest => if e.1 = k then dbDrop k rest else e :: dbDrop k rest

/-- `files/upload` with `"mode": "overwrite"`. -/
def dbPut (k : String) (b : ByteSeq) (r : DropboxRemote) : DropboxRemote :=
  ⟨(k, b) :: dbDrop k r.files⟩

/-- `files/download` body bytes. -/
def dbGet (k : String) : List (String × ByteSeq) → Option ByteSeq
  | [] => none
  | e :: rest => if e.1 = k then some e.2 else dbGet k rest

/-- The Dropbox upload loop (lib.rs:926–958): EVERY non-hidden walked file is
uploaded to `/Azimuth/<relative>`, with no comparison against the remote;
`files_uploaded` counts the uploads whose response status is a success. -/
def dbUploadLoop (flts : DropboxFaults) :
    List (RelPath × ByteSeq) → DropboxRemote → Except String (Nat × DropboxRemote)
  | [], r => .ok (0, r)
  | f :: rest, r =>
    match flts.upFail ("/Azimuth/" ++ joinSlash f.1) with
    | some e => .error e
    | none =>
      if flts.upOk ("/Azimuth/" ++ joinSlash f.1) then
        match dbUploadLoop flts rest (dbPut ("/Azimuth/" ++ joinSlash f.1) f.2 r) with
        | .error e => .error e
        | .ok (n, r') => .ok (n + 1, r')
      else dbUploadLoop flts rest r

/-- `remote_path.strip_prefix("/Azimuth/").unwrap_or(remote_path)`
(lib.rs:979). -/
def dbEntryRel (s : String) : String :=
  if s.data.take 9 = "/Azimuth/".data then String.mk (s.data.drop 9) else s

/-- Local path of a listed Dropbox entry: `base_path.join(relative)`. -/
def dbLocalPath (s : String) : RelPath := splitSlash (dbEntryRel s)

/-- The Dropbox download loop (lib.rs:975–1002): a listed file is downloaded
iff no file EXISTS at its local path (`!local_path.exists()`, not manifest
membership); a transport error aborts, a non-success download status is
skipped without counting. -/
def dbDownloadLoop (flts : DropboxFaults) (r : DropboxRemote) :
    List (String × ByteSeq) → LocalFS → Except String (Nat × LocalFS)
  | [], fs => .ok (0, fs)
  | e :: rest, fs =>
    if fsExists (dbLocalPath e.1) fs then dbDownloadLoop flts r rest fs
    else
      match flts.dlFail e.1 with
      | some err => .error err
      | none =>
        if flts.dlOk e.1 then
          match dbDownloadLoop flts r rest
              (fsWrite (dbLocalPath e.1) ((dbGet e.1 r.files).getD []) fs) with
          | .error err => .error err
          | .ok (n, fs') => .ok (n + 1, fs')
        else dbDownloadLoop flts r rest fs

/-- Shallow embedding of `sync_to_dropbox` (lib.rs:913–1013): upload every
non-hidden local file, then list `/Azimuth` (a transport error aborts; a
non-success status skips the download phase), then download the listed files
missing locally. -/
def sync_to_dropbox (flts : DropboxFaults) (fs : LocalFS) (r : DropboxRemote) :
    Except String (SyncStatus × LocalFS × DropboxRemote) :=
  match dbUploadLoop flts (scanFiles fs) r with
  | .error e => .error e
  | .ok (u, r') =>
    match flts.listFail with
    | some e => .error e
    | none =>
      if flts.listOk then
        match dbDownloadLoop flts r' r'.files fs with
        | .error e => .error e
        | .ok (d, fs') =>
          .ok ({ success := true,
                 message := s!"Dropbox sync complete: {u} uploaded, {d} downloaded",
                 files_uploaded := u, files_downloaded := d, conflicts := [] }, fs', r')
      else
        .ok ({ success := true,
               message := s!"Dropbox sync complete: {u} uploaded, 0 downloaded",
               files_uploaded := u, files_downloaded := 0, conflicts := [] }, fs, r')

/-! ## OneDrive (`sync_to_onedrive`, lib.rs:1015–1098)

Uploads walk the whole tree and PUT to
`/drive/root:/Azimuth/<relative>:/content`; the remote store is keyed by the
relative path.  The listing fetches only the DIRECT children of `/Azimuth`
(`:/children`), and each child item carries a download URL (modelled by the
`hasUrl` oracle — an item without one is silently skipped); a downloaded
child is written straight to `base_path.join(name)` with no directory
creation.  Status handling matches Dropbox: transport errors abort,
non-success statuses are skipped. -/

/-- The OneDrive `/Azimuth` folder contents, keyed by relative path. -/
structure OneDriveRemote where
  files : List (String × ByteSeq)
deriving Repr, DecidableEq

/-- Fault oracle for a OneDrive run. -/
structure OneDriveFaults where
  upFail : String → Option String
  upOk : String → Bool
  listFail : Option String
  listOk : Bool
  hasUrl : String → Bool
  dlFail : String → Option String
  dlOk : String → Bool

/-- A OneDrive run in which every call succeeds with a success status. -/
def odNoFaults : OneDriveFaults :=
  ⟨fun _ => none, fun _ => true, none, true, fun _ => true, fun _ => none, fun _ => true⟩

/-- PUT `…:/content` (overwrite). -/
def odPut (k : String) (b : ByteSeq) (r : OneDriveRemote) : OneDriveRemote :=
  ⟨(k, b) :: dbDrop k r.files⟩

/-- The OneDrive upload loop (lib.rs:1027–1054): every non-hidden walked
file is uploaded unconditionally; successes are counted. -/
def odUploadLoop (flts : OneDriveFaults) :
    List (RelPath × ByteSeq) → OneDriveRemote → Except String (Nat × OneDriveRemote)
  | [], r => .ok (0, r)
  | f :: rest, r =>
    match flts.upFail (joinSlash f.1) with
    | some e => .error e
    | none =>
      if flts.upOk (joinSlash f.1) then
        match odUploadLoop flts rest (odPut (joinSlash f.1) f.2 r) with
        | .error e => .error e
        | .ok (n, r') => .ok (n + 1, r')
      else odUploadLoop flts rest r

/-- The direct children of `/Azimuth`: stored files whose key has no `/`. -/
def odChildren (r : OneDriveRemote) : List (String × ByteSeq) :=
  r.files.filter (fun e => ¬ '/' ∈ e.1.data)

/-- The OneDrive download loop (lib.rs:1066–1087): a listed child whose name
does not exist locally and which has a download URL is fetched and written to
`base_path.join(name)`. -/
def odDownloadLoop (flts : OneDriveFaults) :
    List (String × ByteSeq) → LocalFS → Except String (Nat × LocalFS)
  | [], fs => .ok (0, fs)
  | e :: rest, fs =>
    if fsExists (splitSlash e.1) fs then odDownloadLoop flts rest fs
    else if flts.hasUrl e.1 then
      match flts.dlFail e.1 with
      | some err => .error err
      | none =>
        if flts.dlOk e.1 then
          match odDownloadLoop flts rest (fsWrite (splitSlash e.1) e.2 fs) with
          | .error err => .error err
          | .ok (n, fs') => .ok (n + 1, fs')
        else odDownloadLoop flts rest fs
    else odDownloadLoop flts rest fs

/-- Shallow embedding of `sync_to_onedrive` (lib.rs:1015–1098). -/
def sync_to_onedrive (flts : OneDriveFaults) (fs : LocalFS) (r : OneDriveRemote) :
    Except String (SyncStatus × LocalFS × OneDriveRemote) :=
  match odUploadLoop flts (scanFiles fs) r with
  | .error e => .error e
  | .ok (u, r') =>
    match flts.listFail with
    | some e => .error e
    | none =>
      if flts.listOk then
        match odDownloadLoop flts (odChildren r') fs with
        | .error e => .error e
        | .ok (d, fs') =>
          .ok ({ success := true,
                 message := s!"OneDrive sync complete: {u} uploaded, {d} downloaded",
                 files_uploaded := u, files_downloaded := d, conflicts := [] }, fs', r')
      else
        .ok ({ success := true,
               message := s!"OneDrive sync complete: {u} uploaded, 0 downloaded",
               files_uploaded := u, files_downloaded := 0, conflicts := [] }, fs, r')

/-! ## Google Drive (`sync_to_google_drive`, lib.rs:1100–1189)

After locating (or creating) the `Azimuth` folder, the upload walk is
restricted to `max_depth(1)` — only the immediate top level of the sync root
— and each file is uploaded by name.  `files_downloaded` is a literal `0`:
no download code exists for this provider.  The simple-upload API creates a
new remote file per call, so the remote model accumulates entries. -/

/-- Uploaded Google Drive files in the `Azimuth` folder: name ↦ bytes. -/
abbrev GDriveRemote := List (String × ByteSeq)

/-- Fault oracle for a Google Drive run.  `filesArr = none` models a search
response whose `files` field is not an array (the source then fails with
`"Failed to search for folder"`); an empty list triggers the create-folder
step. -/
structure GDriveFaults where
  searchFail : Option String
  filesArr : Option (List String)
  createFail : Option String
  createdId : String
  upFail : String → Option String
  upOk : String → Bool

/-- A Google Drive run in which every call succeeds, the folder existing. -/
def gdNoFaults : GDriveFaults :=
  ⟨none, some ["folder-id"], none, "folder-id", fun _ => none, fun _ => true⟩

/-- The files visited by the Google Drive walk (lib.rs:1148–1157):
`max_depth(1)` keeps only the immediate top level (relative paths with a
single component), and hidden names are skipped as everywhere else. -/
def scanTopLevel : LocalFS → LocalFS
  | [] => []
  | f :: rest =>
    if f.1.length = 1 ∧ ¬ hiddenFile f.1 then f :: scanTopLevel rest
    else scanTopLevel rest

/-- The Google Drive upload loop (lib.rs:1148–1180): each visited file is
POSTed by file name; successes are counted. -/
def gdUploadLoop (flts : GDriveFaults) :
    List (RelPath × ByteSeq) → GDriveRemote → Except String (Nat × GDriveRemote)
  | [], r => .ok (0, r)
  | f :: rest, r =>
    match flts.upFail (lastName f.1) with
    | some e => .error e
    | none =>
      if flts.upOk (lastName f.1) then
        match gdUploadLoop flts rest ((lastName f.1, f.2) :: r) with
        | .error e => .error e
        | .ok (n, r') => .ok (n + 1, r')
      else gdUploadLoop flts rest r

/-- Shallow embedding of `sync_to_google_drive` (lib.rs:1100–1189). -/
def sync_to_google_drive (flts : GDriveFaults) (fs : LocalFS) (r : GDriveRemote) :
    Except String (SyncStatus × GDriveRemote) :=
  match flts.searchFail with
  | some e => .error e
  | none =>
    match flts.filesArr with
    | none => .error "Failed to search for folder"
    | some ids =>
      let folderStep : Except String Unit :=
        match ids.head? with
        | some _ => .ok ()
        | none =>
          match flts.createFail with
          | some e => .error e
          | none => .ok ()
      match folderStep with
      | .error e => .error e
      | .ok _ =>
        match gdUploadLoop flts (scanTopLevel fs) r with
        | .error e => .error e
        | .ok (u, r') =>
          .ok ({ success := true,
                 message := s!"Google Drive sync complete: {u} uploaded, 0 downloaded",
                 files_uploaded := u, files_downloaded := 0, conflicts := [] }, r')

/-! ## Basic lemmas about the modelled filesystem and scan -/

theorem fsGet_fsWrite_self (p : RelPath) (b : ByteSeq) (fs : LocalFS) :
    fsGet p (fsWrite p b fs) = some b := by
  simp [fsWrite, fsGet]

theorem fsGet_dropKey (p q : RelPath) (fs : LocalFS) (h : q ≠ p) :
    fsGet p (dropKey q fs) = fsGet p fs := by
  induction fs with
  | nil => rfl
  | cons e rest ih =>
    rw [dropKey]
    by_cases he : e.1 = q
    · rw [if_pos he, ih, fsGet, if_neg (fun hc => h (he.symm.trans hc))]
    · rw [if_neg he]
      simp only [fsGet, ih]

theorem fsGet_fsWrite_ne (p q : RelPath) (b : ByteSeq) (fs : LocalFS) (h : q ≠ p) :
    fsGet p (fsWrite q b fs) = fsGet p fs := by
  rw [fsWrite, fsGet, if_neg, fsGet_dropKey p q fs h]
  intro hc; exact h hc

theorem fsExists_fsWrite_mono (p q : RelPath) (b : ByteSeq) (fs : LocalFS)
    (h : fsExists p fs = true) : fsExists p (fsWrite q b fs) = true := by
  by_cases hq : q = p
  · subst hq; simp [fsExists, fsGet_fsWrite_self]
  · rwa [fsExists, fsGet_fsWrite_ne p q b fs hq]

theorem fsExists_of_mem (p : RelPath) (b : ByteSeq) (fs : LocalFS) (h : (p, b) ∈ fs) :
    fsExists p fs = true := by
  induction fs with
  | nil => cases h
  | cons e rest ih =>
    rw [List.mem_cons] at h
    rw [fsExists, fsGet]
    by_cases he : e.1 = p
    · rw [if_pos he]; rfl
    · rw [if_neg he]
      rcases h with h | h
      · cases h; exact absurd rfl he
      · exact ih h

theorem mem_scanFiles_iff (fs : LocalFS) (f : RelPath × ByteSeq) :
    f ∈ scanFiles fs ↔ f ∈ fs ∧ hiddenFile f.1 = false := by
  induction fs with
  | nil => simp [scanFiles]
  | cons e rest ih =>
    rw [scanFiles]
    by_cases he : hiddenFile e.1 = true
    · rw [if_pos he, ih]
      simp only [List.mem_cons]
      constructor
      · rintro ⟨hm, hh⟩; exact ⟨Or.inr hm, hh⟩
      · rintro ⟨hm | hm, hh⟩
        · subst hm; rw [he] at hh; cases hh
        · exact ⟨hm, hh⟩
    · rw [if_neg he]
      simp only [List.mem_cons, ih]
      constructor
      · rintro (hm | ⟨hm, hh⟩)
        · subst hm; exact ⟨Or.inl rfl, by simpa using he⟩
        · exact ⟨Or.inr hm, hh⟩
      · rintro ⟨hm | hm, hh⟩
        · subst hm; exact Or.inl rfl
        · exact Or.inr ⟨hm, hh⟩

theorem lastName_append (d : RelPath) (n : String) : lastName (d ++ [n]) = n := by
  rw [lastName, List.getLastD_concat]

theorem withLastName_append (d : RelPath) (n x : String) :
    withLastName (d ++ [n]) x = d ++ [x] := by
  rw [withLastName, List.dropLast_concat]

theorem append_singleton_eq_iff (d : RelPath) (x y : String) :
    (d ++ [x] = d ++ [y]) ↔ x = y := by
  constructor
  · intro h
    have := List.append_cancel_left h
    simpa using this
  · intro h; rw [h]

/-! ## Split/join round trips for `/`-separated path strings -/

theorem consHead_ne_nil (c : Char) (l : List (List Char)) : consHead c l ≠ [] := by
  cases l <;> simp [consHead]

theorem chunks_ne_nil (sep : Char) (cs : List Char) : chunks sep cs ≠ [] := by
  cases cs with
  | nil => simp [chunks]
  | cons c rest =>
    rw [chunks]
    by_cases hc : c = sep
    · rw [if_pos hc]; simp
    · rw [if_neg hc]; exact consHead_ne_nil c _

theorem chunks_no_sep (sep : Char) (cs : List Char) : ∀ g ∈ chunks sep cs, sep ∉ g := by
  induction cs with
  | nil =>
    intro g hg
    rw [chunks, List.mem_singleton] at hg
    subst hg; simp
  | cons c rest ih =>
    intro g hg
    rw [chunks] at hg
    by_cases hc : c = sep
    · rw [if_pos hc] at hg
      rcases List.mem_cons.mp hg with h | h
      · subst h; simp
      · exact ih g h
    · rw [if_neg hc] at hg
      cases hcr : chunks sep rest with
      | nil => exact absurd hcr (chunks_ne_nil sep rest)
      | cons g0 gs =>
        rw [hcr] at hg ih
        rw [consHead] at hg
        rcases List.mem_cons.mp hg with h | h
        · subst h
          intro hmem
          rcases List.mem_cons.mp hmem with h | h
          · exact hc h.symm
          · exact ih g0 (List.mem_cons_self g0 gs) h
        · exact ih g (List.mem_cons_of_mem g0 h)

theorem joinChunks_chunks (sep : Char) (cs : List Char) :
    joinChunks sep (chunks sep cs) = cs := by
  induction cs with
  | nil => rfl
  | cons c rest ih =>
    rw [chunks]
    by_cases hc : c = sep
    · rw [if_pos hc]
      cases hcr : chunks sep rest with
      | nil => exact absurd hcr (chunks_ne_nil sep rest)
      | cons g gs =>
        rw [hcr] at ih
        show [] ++ sep :: joinChunks sep (g :: gs) = c :: rest
        rw [List.nil_append, ih, hc]
    · rw [if_neg hc]
      cases hcr : chunks sep rest with
      | nil => exact absurd hcr (chunks_ne_nil sep rest)
      | cons g gs =>
        rw [hcr] at ih
        rw [consHead]
        cases gs with
        | nil =>
          show c :: g = c :: rest
          rw [show joinChunks sep [g] = g from rfl] at ih
          rw [ih]
        | cons g1 gs' =>
          show (c :: g) ++ sep :: joinChunks sep (g1 :: gs') = c :: rest
          rw [List.cons_append, ← ih]
          rfl

theorem chunks_injective (sep : Char) {a b : List Char}
    (h : chunks sep a = chunks sep b) : a = b := by
  rw [← joinChunks_chunks sep a, ← joinChunks_chunks sep b, h]

theorem chunks_of_no_sep (sep : Char) (g : List Char) (h : sep ∉ g) :
    chunks sep g = [g] := by
  induction g with
  | nil => rfl
  | cons c rest ih =>
    have hc : ¬ c = sep := fun hc => h (hc ▸ List.mem_cons_self c rest)
    rw [chunks, if_neg hc, ih (fun hm => h (List.mem_cons_of_mem c hm)), consHead]

theorem chunks_append_sep (sep : Char) (g t : List Char) (h : sep ∉ g) :
    chunks sep (g ++ sep :: t) = g :: chunks sep t := by
  induction g with
  | nil =>
    rw [List.nil_append, chunks, if_pos rfl]
  | cons c g' ih =>
    have hc : ¬ c = sep := fun hc => h (hc ▸ List.mem_cons_self c g')
    rw [List.cons_append, chunks, if_neg hc,
      ih (fun hm => h (List.mem_cons_of_mem c hm)), consHead]

theorem chunks_joinChunks (sep : Char) (l : List (List Char)) (hne : l ≠ [])
    (hg : ∀ g ∈ l, sep ∉ g) : chunks sep (joinChunks sep l) = l := by
  induction l with
  | nil => contradiction
  | cons g gs ih =>
    cases gs with
    | nil =>
      show chunks sep (joinChunks sep [g]) = [g]
      rw [show joinChunks sep [g] = g from rfl]
      exact chunks_of_no_sep sep g (hg g (List.mem_cons_self g []))
    | cons g1 gs' =>
      show chunks sep (g ++ sep :: joinChunks sep (g1 :: gs')) = g :: g1 :: gs'
      rw [chunks_append_sep sep g _ (hg g (List.mem_cons_self g _)),
        ih (by simp) (fun x hx => hg x (List.mem_cons_of_mem g hx))]

/-- A well-formed relative path: nonempty, with `/`-free components.  Every
path produced by splitting a string is well formed, and well-formed paths
survive the join/split round trip. -/
abbrev wfPath (p : RelPath) : Prop := p ≠ [] ∧ ∀ c ∈ p, '/' ∉ c.data

theorem mk_data (s : String) : String.mk s.data = s := rfl

theorem splitSlash_joinSlash (p : RelPath) (h : wfPath p) :
    splitSlash (joinSlash p) = p := by
  rw [splitSlash, joinSlash, mk_data,
    chunks_joinChunks '/' (p.map String.data)
      (fun hc => h.1 (List.map_eq_nil_iff.mp hc))
      (fun g hg => by
        rcases List.mem_map.mp hg with ⟨c, hc, rfl⟩
        exact h.2 c hc)]
  rw [List.map_map]
  exact List.map_id'' (fun c => rfl) p

theorem wfPath_splitSlash (s : String) : wfPath (splitSlash s) := by
  constructor
  · rw [splitSlash]
    intro hc
    exact chunks_ne_nil '/' s.data (List.map_eq_nil_iff.mp hc)
  · intro c hc
    rcases List.mem_map.mp hc with ⟨g, hg, rfl⟩
    exact chunks_no_sep '/' s.data g hg

theorem data_append (a b : String) : (a ++ b).data = a.data ++ b.data := by
  cases a; cases b; rfl

theorem splitSlash_injective {a b : String} (h : splitSlash a = splitSlash b) :
    a = b := by
  rw [splitSlash, splitSlash] at h
  have h2 : chunks '/' a.data = chunks '/' b.data :=
    List.map_injective_iff.mpr (fun x y hxy => congrArg String.data hxy) h
  have h3 := chunks_injective '/' h2
  exact congrArg String.mk h3

theorem take9_azimuth (s : String) :
    List.take 9 ("/Azimuth/".data ++ s.data) = "/Azimuth/".data := by
  rw [show (9 : Nat) = ("/Azimuth/".data).length from rfl, List.take_left]

theorem drop9_azimuth (s : String) :
    List.drop 9 ("/Azimuth/".data ++ s.data) = s.data := by
  rw [show (9 : Nat) = ("/Azimuth/".data).length from rfl, List.drop_left]

theorem dbEntryRel_azimuth (s : String) :
    dbEntryRel ("/Azimuth/" ++ s) = s := by
  rw [dbEntryRel, data_append, take9_azimuth, if_pos rfl, drop9_azimuth, mk_data]

theorem dbLocalPath_uploaded (p : RelPath) (h : wfPath p) :
    dbLocalPath ("/Azimuth/" ++ joinSlash p) = p := by
  rw [dbLocalPath, dbEntryRel_azimuth, splitSlash_joinSlash p h]

/-! ## Lemmas about the Dropbox loops -/

theorem ok_pair_eq {ε α β : Type} {a u : α} {b v : β}
    (h : (Except.ok (a, b) : Except ε (α × β)) = .ok (u, v)) : a = u ∧ b = v := by
  rw [Except.ok.injEq, Prod.mk.injEq] at h
  exact h

theorem mem_dropKey (p : RelPath) (fs : LocalFS) (e : RelPath × ByteSeq)
    (h : e ∈ dropKey p fs) : e ∈ fs := by
  induction fs with
  | nil => cases h
  | cons x rest ih =>
    rw [dropKey] at h
    by_cases hx : x.1 = p
    · rw [if_pos hx] at h
      exact List.mem_cons_of_mem x (ih h)
    · rw [if_neg hx] at h
      rcases List.mem_cons.mp h with h | h
      · exact h ▸ List.mem_cons_self x rest
      · exact List.mem_cons_of_mem x (ih h)

theorem mem_fsWrite (p : RelPath) (b : ByteSeq) (fs : LocalFS) (e : RelPath × ByteSeq)
    (h : e ∈ fsWrite p b fs) : e = (p, b) ∨ e ∈ fs := by
  rw [fsWrite] at h
  rcases List.mem_cons.mp h with h | h
  · exact Or.inl h
  · exact Or.inr (mem_dropKey p fs e h)

theorem mem_dbDrop (k : String) (l : List (String × ByteSeq)) (e : String × ByteSeq)
    (h : e ∈ dbDrop k l) : e ∈ l := by
  induction l with
  | nil => cases h
  | cons x rest ih =>
    rw [dbDrop] at h
    by_cases hx : x.1 = k
    · rw [if_pos hx] at h
      exact List.mem_cons_of_mem x (ih h)
    · rw [if_neg hx] at h
      rcases List.mem_cons.mp h with h | h
      · exact h ▸ List.mem_cons_self x rest
      · exact List.mem_cons_of_mem x (ih h)

/-- A fault-free Dropbox upload loop succeeds and counts every file. -/
theorem dbUploadLoop_noFaults (files : List (RelPath × ByteSeq)) :
    ∀ r : DropboxRemote, ∃ r',
      dbUploadLoop dbNoFaults files r = .ok (files.length, r') := by
  induction files with
  | nil => intro r; exact ⟨r, rfl⟩
  | cons f rest ih =>
    intro r
    obtain ⟨r', hr'⟩ := ih (dbPut ("/Azimuth/" ++ joinSlash f.1) f.2 r)
    refine ⟨r', ?_⟩
    show (match dbUploadLoop dbNoFaults rest (dbPut ("/Azimuth/" ++ joinSlash f.1) f.2 r) with
      | .error e => Except.error e
      | .ok (n, r') => .ok (n + 1, r')) = _
    rw [hr']
    rfl

/-- Every file the Dropbox upload loop's final remote holds was already there
or was uploaded from a walked local file (key `/Azimuth/<relative>`). -/
theorem dbUploadLoop_origin (flts : DropboxFaults) (files : List (RelPath × ByteSeq)) :
    ∀ r u r', dbUploadLoop flts files r = .ok (u, r') →
      ∀ e ∈ r'.files, e ∈ r.files ∨ ∃ f ∈ files, e.1 = "/Azimuth/" ++ joinSlash f.1 := by
  induction files with
  | nil =>
    intro r u r' h e he
    rw [dbUploadLoop] at h
    obtain ⟨-, h2⟩ := ok_pair_eq h
    rw [← h2] at he
    exact Or.inl he
  | cons f rest ih =>
    intro r u r' h e he
    rw [dbUploadLoop] at h
    cases hup : flts.upFail ("/Azimuth/" ++ joinSlash f.1) with
    | some err => rw [hup] at h; cases h
    | none =>
      rw [hup] at h
      by_cases hok : flts.upOk ("/Azimuth/" ++ joinSlash f.1) = true
      · rw [if_pos hok] at h
        cases hrec : dbUploadLoop flts rest (dbPut ("/Azimuth/" ++ joinSlash f.1) f.2 r) with
        | error err => rw [hrec] at h; cases h
        | ok pr =>
          rw [hrec] at h
          obtain ⟨n, r2⟩ := pr
          obtain ⟨-, h2⟩ := ok_pair_eq h
          rw [← h2] at he
          rcases ih _ _ _ hrec e he with hmem | ⟨g, hg, hgk⟩
          · rw [dbPut] at hmem
            rcases List.mem_cons.mp hmem with hmem | hmem
            · exact Or.inr ⟨f, List.mem_cons_self f rest, by rw [hmem]⟩
            · exact Or.inl (mem_dbDrop _ _ _ hmem)
          · exact Or.inr ⟨g, List.mem_cons_of_mem f hg, hgk⟩
      · rw [if_neg hok] at h
        rcases ih _ _ _ h e he with hmem | ⟨g, hg, hgk⟩
        · exact Or.inl hmem
        · exact Or.inr ⟨g, List.mem_cons_of_mem f hg, hgk⟩

/-- If every upload response has a success status, the count is the number of
walked files. -/
theorem dbUploadLoop_count (flts : DropboxFaults) (hok : ∀ p, flts.upOk p = true)
    (files : List (RelPath × ByteSeq)) :
    ∀ r u r', dbUploadLoop flts files r = .ok (u, r') → u = files.length := by
  induction files with
  | nil =>
    intro r u r' h
    rw [dbUploadLoop] at h
    obtain ⟨h1, -⟩ := ok_pair_eq h
    rw [← h1]; rfl
  | cons f rest ih =>
    intro r u r' h
    rw [dbUploadLoop] at h
    cases hup : flts.upFail ("/Azimuth/" ++ joinSlash f.1) with
    | some err => rw [hup] at h; cases h
    | none =>
      rw [hup, if_pos (hok _)] at h
      cases hrec : dbUploadLoop flts rest (dbPut ("/Azimuth/" ++ joinSlash f.1) f.2 r) with
      | error err => rw [hrec] at h; cases h
      | ok pr =>
        rw [hrec] at h
        obtain ⟨n, r2⟩ := pr
        obtain ⟨h1, -⟩ := ok_pair_eq h
        rw [← h1, List.length_cons, ih _ _ _ hrec]

/-- A completed Dropbox upload loop had no transport failure on any walked
file's upload call. -/
theorem dbUploadLoop_no_transport_failure (flts : DropboxFaults)
    (files : List (RelPath × ByteSeq)) :
    ∀ r u r', dbUploadLoop flts files r = .ok (u, r') →
      ∀ f ∈ files, flts.upFail ("/Azimuth/" ++ joinSlash f.1) = none := by
  induction files with
  | nil => intro r u r' _ f hf; cases hf
  | cons f0 rest ih =>
    intro r u r' h f hf
    rw [dbUploadLoop] at h
    cases hup : flts.upFail ("/Azimuth/" ++ joinSlash f0.1) with
    | some err => rw [hup] at h; cases h
    | none =>
      rw [hup] at h
      rcases List.mem_cons.mp hf with hf | hf
      · rw [hf]; exact hup
      · by_cases hok : flts.upOk ("/Azimuth/" ++ joinSlash f0.1) = true
        · rw [if_pos hok] at h
          cases hrec : dbUploadLoop flts rest (dbPut ("/Azimuth/" ++ joinSlash f0.1) f0.2 r) with
          | error err => rw [hrec] at h; cases h
          | ok pr => exact ih _ _ _ hrec f hf
        · rw [if_neg hok] at h
          exact ih _ _ _ h f hf

/-- The Dropbox download loop only adds files: existence is monotone. -/
theorem dbDownloadLoop_exists_mono (flts : DropboxFaults) (r : DropboxRemote)
    (listing : List (String × ByteSeq)) :
    ∀ fs d fs', dbDownloadLoop flts r listing fs = .ok (d, fs') →
      ∀ p, fsExists p fs = true → fsExists p fs' = true := by
  induction listing with
  | nil =>
    intro fs d fs' h p hp
    rw [dbDownloadLoop] at h
    obtain ⟨-, h2⟩ := ok_pair_eq h
    rw [← h2]; exact hp
  | cons e rest ih =>
    intro fs d fs' h p hp
    rw [dbDownloadLoop] at h
    by_cases hex : fsExists (dbLocalPath e.1) fs = true
    · rw [if_pos hex] at h
      exact ih _ _ _ h p hp
    · rw [if_neg hex] at h
      cases hdl : flts.dlFail e.1 with
      | some err => rw [hdl] at h; cases h
      | none =>
        rw [hdl] at h
        by_cases hok : flts.dlOk e.1 = true
        · rw [if_pos hok] at h
          cases hrec : dbDownloadLoop flts r rest
              (fsWrite (dbLocalPath e.1) ((dbGet e.1 r.files).getD []) fs) with
          | error err => rw [hrec] at h; cases h
          | ok pr =>
            obtain ⟨n, fs2⟩ := pr
            rw [hrec] at h
            obtain ⟨-, h2⟩ := ok_pair_eq h
            rw [← h2]
            exact ih _ _ _ hrec p (fsExists_fsWrite_mono p _ _ fs hp)
        · rw [if_neg hok] at h
          exact ih _ _ _ h p hp

/-- After a fault-free Dropbox download loop, every listed entry's local path
exists. -/
theorem dbDownloadLoop_all_exist (r : DropboxRemote)
    (listing : List (String × ByteSeq)) :
    ∀ fs d fs', dbDownloadLoop dbNoFaults r listing fs = .ok (d, fs') →
      ∀ e ∈ listing, fsExists (dbLocalPath e.1) fs' = true := by
  induction listing with
  | nil => intro fs d fs' _ e he; cases he
  | cons e0 rest ih =>
    intro fs d fs' h e he
    rw [dbDownloadLoop] at h
    by_cases hex : fsExists (dbLocalPath e0.1) fs = true
    · rw [if_pos hex] at h
      rcases List.mem_cons.mp he with he | he
      · rw [he]
        exact dbDownloadLoop_exists_mono dbNoFaults r rest _ _ _ h _ hex
      · exact ih _ _ _ h e he
    · rw [if_neg hex] at h
      simp only [dbNoFaults, if_true] at h
      cases hrec : dbDownloadLoop dbNoFaults r rest
          (fsWrite (dbLocalPath e0.1) ((dbGet e0.1 r.files).getD []) fs) with
      | error err =>
        rw [show dbNoFaults = (⟨fun _ => none, fun _ => true, none, true,
          fun _ => none, fun _ => true⟩ : DropboxFaults) from rfl] at hrec
        rw [hrec] at h; cases h
      | ok pr =>
        obtain ⟨n, fs2⟩ := pr
        rw [show dbNoFaults = (⟨fun _ => none, fun _ => true, none, true,
          fun _ => none, fun _ => true⟩ : DropboxFaults) from rfl] at hrec
        rw [hrec] at h
        obtain ⟨-, h2⟩ := ok_pair_eq h
        rw [show (⟨fun _ => none, fun _ => true, none, true,
          fun _ => none, fun _ => true⟩ : DropboxFaults) = dbNoFaults from rfl] at hrec
        rcases List.mem_cons.mp he with he | he
        · rw [he, ← h2]
          exact dbDownloadLoop_exists_mono dbNoFaults r rest _ _ _ hrec _
            (by rw [fsExists, fsGet_fsWrite_self]; rfl)
        · rw [← h2]
          exact ih _ _ _ hrec e he

/-- When every listed entry's local path already exists, the download loop
downloads nothing and leaves the tree unchanged. -/
theorem dbDownloadLoop_all_present (flts : DropboxFaults) (r : DropboxRemote)
    (listing : List (String × ByteSeq)) (fs : LocalFS)
    (h : ∀ e ∈ listing, fsExists (dbLocalPath e.1) fs = true) :
    dbDownloadLoop flts r listing fs = .ok (0, fs) := by
  induction listing with
  | nil => rfl
  | cons e rest ih =>
    rw [dbDownloadLoop, if_pos (h e (List.mem_cons_self e rest))]
    exact ih (fun x hx => h x (List.mem_cons_of_mem e hx))

/-- The Dropbox download loop writes only split paths, so it preserves path
well-formedness of the tree. -/
theorem dbDownloadLoop_wf (flts : DropboxFaults) (r : DropboxRemote)
    (listing : List (String × ByteSeq)) :
    ∀ fs d fs', dbDownloadLoop flts r listing fs = .ok (d, fs') →
      (∀ f ∈ fs, wfPath f.1) → ∀ f ∈ fs', wfPath f.1 := by
  induction listing with
  | nil =>
    intro fs d fs' h hwf f hf
    rw [dbDownloadLoop] at h
    obtain ⟨-, h2⟩ := ok_pair_eq h
    rw [← h2] at hf
    exact hwf f hf
  | cons e rest ih =>
    intro fs d fs' h hwf f hf
    rw [dbDownloadLoop] at h
    by_cases hex : fsExists (dbLocalPath e.1) fs = true
    · rw [if_pos hex] at h
      exact ih _ _ _ h hwf f hf
    · rw [if_neg hex] at h
      cases hdl : flts.dlFail e.1 with
      | some err => rw [hdl] at h; cases h
      | none =>
        rw [hdl] at h
        by_cases hok : flts.dlOk e.1 = true
        · rw [if_pos hok] at h
          cases hrec : dbDownloadLoop flts r rest
              (fsWrite (dbLocalPath e.1) ((dbGet e.1 r.files).getD []) fs) with
          | error err => rw [hrec] at h; cases h
          | ok pr =>
            obtain ⟨n, fs2⟩ := pr
            rw [hrec] at h
            obtain ⟨-, h2⟩ := ok_pair_eq h
            rw [← h2] at hf
            refine ih _ _ _ hrec ?_ f hf
            intro g hg
            rcases mem_fsWrite _ _ _ g hg with hg | hg
            · rw [hg]
              exact wfPath_splitSlash (dbEntryRel e.1)
            · exact hwf g hg
        · rw [if_neg hok] at h
          exact ih _ _ _ h hwf f hf

/-- Introduction form of a successful Dropbox sync run. -/
theorem sync_to_dropbox_ok_intro (flts : DropboxFaults) (fs : LocalFS) (r : DropboxRemote)
    (u : Nat) (r' : DropboxRemote) (d : Nat) (fs' : LocalFS)
    (hu : dbUploadLoop flts (scanFiles fs) r = .ok (u, r'))
    (hl : flts.listFail = none) (hlo : flts.listOk = true)
    (hd : dbDownloadLoop flts r' r'.files fs = .ok (d, fs')) :
    sync_to_dropbox flts fs r =
      .ok ({ success := true,
             message := s!"Dropbox sync complete: {u} uploaded, {d} downloaded",
             files_uploaded := u, files_downloaded := d, conflicts := [] }, fs', r') := by
  rw [sync_to_dropbox, hu]
  dsimp only
  rw [hl]
  dsimp only
  rw [if_pos hlo, hd]

/-- Elimination form of a successful Dropbox sync run (success-status list). -/
theorem sync_to_dropbox_ok_elim (flts : DropboxFaults) (fs : LocalFS) (r : DropboxRemote)
    (st : SyncStatus) (fs' : LocalFS) (r' : DropboxRemote)
    (h : sync_to_dropbox flts fs r = .ok (st, fs', r'))
    (hlo : flts.listOk = true) :
    ∃ u d, dbUploadLoop flts (scanFiles fs) r = .ok (u, r') ∧
      dbDownloadLoop flts r' r'.files fs = .ok (d, fs') ∧
      st.files_uploaded = u ∧ st.files_downloaded = d := by
  rw [sync_to_dropbox] at h
  cases hu : dbUploadLoop flts (scanFiles fs) r with
  | error e => rw [hu] at h; cases h
  | ok pr =>
    obtain ⟨u, r2⟩ := pr
    rw [hu] at h
    dsimp only at h
    cases hl : flts.listFail with
    | some e => rw [hl] at h; cases h
    | none =>
      rw [hl] at h
      dsimp only at h
      rw [if_pos hlo] at h
      cases hd : dbDownloadLoop flts r2 r2.files fs with
      | error e => rw [hd] at h; cases h
      | ok pr2 =>
        obtain ⟨d, fs2⟩ := pr2
        rw [hd] at h
        dsimp only at h
        rw [Except.ok.injEq, Prod.mk.injEq, Prod.mk.injEq] at h
        obtain ⟨hst, hfs, hr⟩ := h
        subst hfs; subst hr
        exact ⟨u, d, rfl, hd, by rw [← hst], by rw [← hst]⟩

/-- A completed Dropbox sync had no transport-level list failure, and no
transport-level failure on any walked file's upload. -/
theorem sync_to_dropbox_ok_upload (flts : DropboxFaults) (fs : LocalFS) (r : DropboxRemote)
    (st : SyncStatus) (fs' : LocalFS) (r' : DropboxRemote)
    (h : sync_to_dropbox flts fs r = .ok (st, fs', r')) :
    flts.listFail = none ∧
      ∃ u, dbUploadLoop flts (scanFiles fs) r = .ok (u, r') ∧ st.files_uploaded = u := by
  rw [sync_to_dropbox] at h
  cases hu : dbUploadLoop flts (scanFiles fs) r with
  | error e => rw [hu] at h; cases h
  | ok pr =>
    obtain ⟨u, r2⟩ := pr
    rw [hu] at h
    dsimp only at h
    cases hl : flts.listFail with
    | some e => rw [hl] at h; cases h
    | none =>
      rw [hl] at h
      dsimp only at h
      by_cases hlo : flts.listOk = true
      · rw [if_pos hlo] at h
        cases hd : dbDownloadLoop flts r2 r2.files fs with
        | error e => rw [hd] at h; cases h
        | ok pr2 =>
          obtain ⟨d, fs2⟩ := pr2
          rw [hd] at h
          dsimp only at h
          rw [Except.ok.injEq, Prod.mk.injEq, Prod.mk.injEq] at h
          obtain ⟨hst, -, hr⟩ := h
          subst hr
          exact ⟨rfl, u, rfl, by rw [← hst]⟩
      · rw [if_neg hlo] at h
        rw [Except.ok.injEq, Prod.mk.injEq, Prod.mk.injEq] at h
        obtain ⟨hst, -, hr⟩ := h
        subst hr
        exact ⟨rfl, u, rfl, by rw [← hst]⟩

/-- Pointwise-equal predicates count the same. -/
theorem countP_ext {α : Type} (p q : α → Bool) :
    ∀ l : List α, (∀ a ∈ l, p a = q a) → l.countP p = l.countP q := by
  intro l
  induction l with
  | nil => intro _; rfl
  | cons x rest ih =>
    intro hpq
    rw [List.countP_cons, List.countP_cons, hpq x (List.mem_cons_self x rest),
      ih (fun a ha => hpq a (List.mem_cons_of_mem x ha))]

/-- The fault-free Dropbox download loop downloads a listed entry iff no
file exists at its local path, once each (for listings whose local paths are
pairwise distinct). -/
theorem dbDownloadLoop_count (r : DropboxRemote) (listing : List (String × ByteSeq))
    (hnd : (listing.map (fun e => dbLocalPath e.1)).Nodup) :
    ∀ fs d fs', dbDownloadLoop dbNoFaults r listing fs = .ok (d, fs') →
      d = listing.countP (fun e => !(fsExists (dbLocalPath e.1) fs)) := by
  induction listing with
  | nil =>
    intro fs d fs' h
    rw [dbDownloadLoop] at h
    obtain ⟨h1, -⟩ := ok_pair_eq h
    rw [← h1]; rfl
  | cons e0 rest ih =>
    intro fs d fs' h
    rw [List.map_cons, List.nodup_cons] at hnd
    rw [dbDownloadLoop] at h
    rw [List.countP_cons]
    by_cases hex : fsExists (dbLocalPath e0.1) fs = true
    · rw [if_pos hex] at h
      rw [ih hnd.2 _ _ _ h, hex]
      rfl
    · rw [if_neg hex] at h
      rw [Bool.not_eq_true] at hex
      simp only [dbNoFaults, if_true] at h
      cases hrec : dbDownloadLoop dbNoFaults r rest
          (fsWrite (dbLocalPath e0.1) ((dbGet e0.1 r.files).getD []) fs) with
      | error err =>
        rw [show dbNoFaults = (⟨fun _ => none, fun _ => true, none, true,
          fun _ => none, fun _ => true⟩ : DropboxFaults) from rfl] at hrec
        rw [hrec] at h; cases h
      | ok pr =>
        obtain ⟨n, fs2⟩ := pr
        rw [show dbNoFaults = (⟨fun _ => none, fun _ => true, none, true,
          fun _ => none, fun _ => true⟩ : DropboxFaults) from rfl] at hrec
        rw [hrec] at h
        obtain ⟨h1, -⟩ := ok_pair_eq h
        rw [show (⟨fun _ => none, fun _ => true, none, true,
          fun _ => none, fun _ => true⟩ : DropboxFaults) = dbNoFaults from rfl] at hrec
        have hcnt := ih hnd.2 _ _ _ hrec
        have hsame : rest.countP
            (fun e => !(fsExists (dbLocalPath e.1)
              (fsWrite (dbLocalPath e0.1) ((dbGet e0.1 r.files).getD []) fs))) =
            rest.countP (fun e => !(fsExists (dbLocalPath e.1) fs)) := by
          refine countP_ext _ _ rest (fun a ha => ?_)
          rw [fsExists, fsGet_fsWrite_ne (dbLocalPath a.1) (dbLocalPath e0.1) _ fs
            (fun hc => hnd.1 (by
              rw [hc]
              exact List.mem_map_of_mem (fun y => dbLocalPath y.1) ha))]
          rfl
        rw [← h1, hcnt, hsame, hex]
        rfl

/-! ## Lemmas about the Google Drive loop -/

theorem mem_scanTopLevel (fs : LocalFS) (f : RelPath × ByteSeq)
    (h : f ∈ scanTopLevel fs) :
    f ∈ fs ∧ f.1.length = 1 ∧ hiddenFile f.1 = false := by
  induction fs with
  | nil => cases h
  | cons e rest ih =>
    rw [scanTopLevel] at h
    by_cases he : e.1.length = 1 ∧ ¬ hiddenFile e.1 = true
    · rw [if_pos he] at h
      rcases List.mem_cons.mp h with h | h
      · subst h
        exact ⟨List.mem_cons_self f rest, he.1, Bool.not_eq_true _ ▸ he.2⟩
      · obtain ⟨h1, h2, h3⟩ := ih h
        exact ⟨List.mem_cons_of_mem e h1, h2, h3⟩
    · rw [if_neg he] at h
      obtain ⟨h1, h2, h3⟩ := ih h
      exact ⟨List.mem_cons_of_mem e h1, h2, h3⟩

/-- Every file the Google Drive upload loop's final remote holds was already
there or was uploaded by name from a visited local file. -/
theorem gdUploadLoop_origin (flts : GDriveFaults) (files : List (RelPath × ByteSeq)) :
    ∀ r u r', gdUploadLoop flts files r = .ok (u, r') →
      ∀ e ∈ r', e ∈ r ∨ ∃ f ∈ files, e = (lastName f.1, f.2) := by
  induction files with
  | nil =>
    intro r u r' h e he
    rw [gdUploadLoop] at h
    obtain ⟨-, h2⟩ := ok_pair_eq h
    rw [← h2] at he
    exact Or.inl he
  | cons f rest ih =>
    intro r u r' h e he
    rw [gdUploadLoop] at h
    cases hup : flts.upFail (lastName f.1) with
    | some err => rw [hup] at h; cases h
    | none =>
      rw [hup] at h
      by_cases hok : flts.upOk (lastName f.1) = true
      · rw [if_pos hok] at h
        cases hrec : gdUploadLoop flts rest ((lastName f.1, f.2) :: r) with
        | error err => rw [hrec] at h; cases h
        | ok pr =>
          rw [hrec] at h
          obtain ⟨n, r2⟩ := pr
          obtain ⟨-, h2⟩ := ok_pair_eq h
          rw [← h2] at he
          rcases ih _ _ _ hrec e he with hmem | ⟨g, hg, hgk⟩
          · rcases List.mem_cons.mp hmem with hmem | hmem
            · exact Or.inr ⟨f, List.mem_cons_self f rest, hmem⟩
            · exact Or.inl hmem
          · exact Or.inr ⟨g, List.mem_cons_of_mem f hg, hgk⟩
      · rw [if_neg hok] at h
        rcases ih _ _ _ h e he with hmem | ⟨g, hg, hgk⟩
        · exact Or.inl hmem
        · exact Or.inr ⟨g, List.mem_cons_of_mem f hg, hgk⟩

/-- Elimination form of a successful Google Drive sync run. -/
theorem sync_to_google_drive_ok_elim (flts : GDriveFaults) (fs : LocalFS)
    (r : GDriveRemote) (st : SyncStatus) (r' : GDriveRemote)
    (h : sync_to_google_drive flts fs r = .ok (st, r')) :
    st.files_downloaded = 0 ∧
      ∃ u, gdUploadLoop flts (scanTopLevel fs) r = .ok (u, r') := by
  rw [sync_to_google_drive] at h
  cases hs : flts.searchFail with
  | some e => rw [hs] at h; cases h
  | none =>
    rw [hs] at h
    dsimp only at h
    cases hfa : flts.filesArr with
    | none => rw [hfa] at h; cases h
    | some ids =>
      rw [hfa] at h
      dsimp only at h
      cases hhd : ids.head? with
      | some i =>
        rw [hhd] at h
        dsimp only at h
        cases hu : gdUploadLoop flts (scanTopLevel fs) r with
        | error e => rw [hu] at h; cases h
        | ok pr =>
          obtain ⟨u, r2⟩ := pr
          rw [hu] at h
          dsimp only at h
          rw [Except.ok.injEq, Prod.mk.injEq] at h
          obtain ⟨hst, hr⟩ := h
          subst hr
          exact ⟨by rw [← hst], u, rfl⟩
      | none =>
        rw [hhd] at h
        dsimp only at h
        cases hcf : flts.createFail with
        | some e => rw [hcf] at h; cases h
        | none =>
          rw [hcf] at h
          dsimp only at h
          cases hu : gdUploadLoop flts (scanTopLevel fs) r with
          | error e => rw [hu] at h; cases h
          | ok pr =>
            obtain ⟨u, r2⟩ := pr
            rw [hu] at h
            dsimp only at h
            rw [Except.ok.injEq, Prod.mk.injEq] at h
            obtain ⟨hst, hr⟩ := h
            subst hr
            exact ⟨by rw [← hst], u, rfl⟩

/-! ## Lemmas about the S3 loops -/

theorem contains_false_not_mem {l : List String} {a : String}
    (h : l.contains a = false) : a ∉ l := by simpa using h

theorem contains_true_of_mem {l : List String} {a : String}
    (h : a ∈ l) : l.contains a = true := by simpa using h

theorem s3Get_s3Drop (k k' : String) (l : List S3Object) (h : k' ≠ k) :
    s3Get k (s3Drop k' l) = s3Get k l := by
  induction l with
  | nil => rfl
  | cons o rest ih =>
    rw [s3Drop]
    by_cases ho : o.key = k'
    · rw [if_pos ho, ih, s3Get, if_neg (fun hc => h (ho.symm.trans hc))]
    · rw [if_neg ho]
      simp only [s3Get, ih]

theorem s3Get_s3Put_ne (etagOf : ByteSeq → String) (k k' : String) (b : ByteSeq)
    (r : S3Remote) (h : k' ≠ k) :
    s3Get k (s3Put etagOf k' b r).objects = s3Get k r.objects := by
  rw [s3Put, s3Get, if_neg h, s3Get_s3Drop k k' r.objects h]

/-- The S3 upload loop leaves remote keys it does not upload untouched. -/
theorem s3UploadLoop_preserves (h etagOf : ByteSeq → String) (flts : S3Faults)
    (listing : List (String × String)) (files : List (RelPath × ByteSeq)) :
    ∀ r u r', s3UploadLoop h etagOf flts listing files r = .ok (u, r') →
      ∀ k, (∀ f ∈ files, joinSlash f.1 ≠ k) →
        s3Get k r'.objects = s3Get k r.objects := by
  induction files with
  | nil =>
    intro r u r' hr k _
    rw [s3UploadLoop] at hr
    obtain ⟨-, h2⟩ := ok_pair_eq hr
    rw [← h2]
  | cons f rest ih =>
    intro r u r' hr k hk
    rw [s3UploadLoop] at hr
    by_cases hup : s3ShouldUpload h listing f = true
    · rw [if_pos hup] at hr
      cases hpf : flts.putFail (joinSlash f.1) with
      | some e => rw [hpf] at hr; cases hr
      | none =>
        rw [hpf] at hr
        cases hrec : s3UploadLoop h etagOf flts listing rest
            (s3Put etagOf (joinSlash f.1) f.2 r) with
        | error e => rw [hrec] at hr; cases hr
        | ok pr =>
          rw [hrec] at hr
          obtain ⟨n, r2⟩ := pr
          obtain ⟨-, h2⟩ := ok_pair_eq hr
          rw [← h2, ih _ _ _ hrec k (fun g hg => hk g (List.mem_cons_of_mem f hg)),
            s3Get_s3Put_ne etagOf k (joinSlash f.1) f.2 r
              (hk f (List.mem_cons_self f rest))]
    · rw [if_neg hup] at hr
      exact ih _ _ _ hr k (fun g hg => hk g (List.mem_cons_of_mem f hg))

/-- The S3 upload loop counts exactly the files satisfying the upload
decision of lib.rs:861–864, once each. -/
theorem s3UploadLoop_count (h etagOf : ByteSeq → String) (flts : S3Faults)
    (listing : List (String × String)) (files : List (RelPath × ByteSeq)) :
    ∀ r u r', s3UploadLoop h etagOf flts listing files r = .ok (u, r') →
      u = files.countP (s3ShouldUpload h listing) := by
  induction files with
  | nil =>
    intro r u r' hr
    rw [s3UploadLoop] at hr
    obtain ⟨h1, -⟩ := ok_pair_eq hr
    rw [← h1]; rfl
  | cons f rest ih =>
    intro r u r' hr
    rw [s3UploadLoop] at hr
    rw [List.countP_cons]
    by_cases hup : s3ShouldUpload h listing f = true
    · rw [if_pos hup] at hr
      cases hpf : flts.putFail (joinSlash f.1) with
      | some e => rw [hpf] at hr; cases hr
      | none =>
        rw [hpf] at hr
        cases hrec : s3UploadLoop h etagOf flts listing rest
            (s3Put etagOf (joinSlash f.1) f.2 r) with
        | error e => rw [hrec] at hr; cases hr
        | ok pr =>
          rw [hrec] at hr
          obtain ⟨n, r2⟩ := pr
          obtain ⟨h1, -⟩ := ok_pair_eq hr
          rw [← h1, ih _ _ _ hrec, hup, if_pos rfl]
    · rw [if_neg hup] at hr
      rw [ih _ _ _ hr, if_neg hup]
      rfl

/-- A completed S3 upload loop had no `put_object` failure on any file it
decided to upload. -/
theorem s3UploadLoop_no_put_failure (h etagOf : ByteSeq → String) (flts : S3Faults)
    (listing : List (String × String)) (files : List (RelPath × ByteSeq)) :
    ∀ r u r', s3UploadLoop h etagOf flts listing files r = .ok (u, r') →
      ∀ f ∈ files, s3ShouldUpload h listing f = true →
        flts.putFail (joinSlash f.1) = none := by
  induction files with
  | nil => intro r u r' _ f hf; cases hf
  | cons f0 rest ih =>
    intro r u r' hr f hf hup
    rw [s3UploadLoop] at hr
    by_cases hup0 : s3ShouldUpload h listing f0 = true
    · rw [if_pos hup0] at hr
      cases hpf : flts.putFail (joinSlash f0.1) with
      | some e => rw [hpf] at hr; cases hr
      | none =>
        rw [hpf] at hr
        rcases List.mem_cons.mp hf with hf | hf
        · rw [hf]; exact hpf
        · cases hrec : s3UploadLoop h etagOf flts listing rest
              (s3Put etagOf (joinSlash f0.1) f0.2 r) with
          | error e => rw [hrec] at hr; cases hr
          | ok pr => exact ih _ _ _ hrec f hf hup
    · rw [if_neg hup0] at hr
      rcases List.mem_cons.mp hf with hf | hf
      · exact absurd (hf ▸ hup) hup0
      · exact ih _ _ _ hr f hf hup

theorem s3Get_of_mem (l : List S3Object) (hnd : (l.map (fun o => o.key)).Nodup) :
    ∀ o ∈ l, s3Get o.key l = some o.bytes := by
  induction l with
  | nil => intro o ho; cases ho
  | cons x rest ih =>
    intro o ho
    rw [List.map_cons, List.nodup_cons] at hnd
    rcases List.mem_cons.mp ho with ho | ho
    · rw [ho, s3Get, if_pos rfl]
    · rw [s3Get]
      have hne : x.key ≠ o.key := fun hc =>
        hnd.1 (hc ▸ List.mem_map_of_mem (fun o => o.key) ho)
      rw [if_neg hne]
      exact ih hnd.2 o ho

/-- The S3 download count: every listed key with no local manifest record,
exactly once each. -/
theorem s3DownloadLoop_count (flts : S3Faults) (r : S3Remote) (localKeys : List String)
    (listing : List (String × String)) :
    ∀ fs d fs', s3DownloadLoop flts r localKeys listing fs = .ok (d, fs') →
      d = listing.countP (fun e => !(localKeys.contains e.1)) := by
  induction listing with
  | nil =>
    intro fs d fs' hr
    rw [s3DownloadLoop] at hr
    obtain ⟨h1, -⟩ := ok_pair_eq hr
    rw [← h1]; rfl
  | cons e rest ih =>
    intro fs d fs' hr
    rw [s3DownloadLoop] at hr
    rw [List.countP_cons]
    by_cases hc : localKeys.contains e.1 = true
    · rw [if_pos hc] at hr
      rw [ih _ _ _ hr, hc]
      rfl
    · rw [if_neg hc] at hr
      cases hgf : flts.getFail e.1 with
      | some err => rw [hgf] at hr; cases hr
      | none =>
        rw [hgf] at hr
        cases hrec : s3DownloadLoop flts r localKeys rest
            (fsWrite (splitSlash e.1) ((s3Get e.1 r.objects).getD []) fs) with
        | error err => rw [hrec] at hr; cases hr
        | ok pr =>
          rw [hrec] at hr
          obtain ⟨n, fs2⟩ := pr
          obtain ⟨h1, -⟩ := ok_pair_eq hr
          rw [Bool.not_eq_true] at hc
          rw [← h1, ih _ _ _ hrec, hc]
          rfl

/-- The S3 download loop writes only at listed keys' split paths. -/
theorem s3DownloadLoop_preserves (flts : S3Faults) (r : S3Remote)
    (localKeys : List String) (listing : List (String × String)) :
    ∀ fs d fs', s3DownloadLoop flts r localKeys listing fs = .ok (d, fs') →
      ∀ p, (∀ e ∈ listing, splitSlash e.1 ≠ p) → fsGet p fs' = fsGet p fs := by
  induction listing with
  | nil =>
    intro fs d fs' hr p _
    rw [s3DownloadLoop] at hr
    obtain ⟨-, h2⟩ := ok_pair_eq hr
    rw [← h2]
  | cons e rest ih =>
    intro fs d fs' hr p hp
    rw [s3DownloadLoop] at hr
    by_cases hc : localKeys.contains e.1 = true
    · rw [if_pos hc] at hr
      exact ih _ _ _ hr p (fun x hx => hp x (List.mem_cons_of_mem e hx))
    · rw [if_neg hc] at hr
      cases hgf : flts.getFail e.1 with
      | some err => rw [hgf] at hr; cases hr
      | none =>
        rw [hgf] at hr
        cases hrec : s3DownloadLoop flts r localKeys rest
            (fsWrite (splitSlash e.1) ((s3Get e.1 r.objects).getD []) fs) with
        | error err => rw [hrec] at hr; cases hr
        | ok pr =>
          rw [hrec] at hr
          obtain ⟨n, fs2⟩ := pr
          obtain ⟨-, h2⟩ := ok_pair_eq hr
          rw [← h2, ih _ _ _ hrec p (fun x hx => hp x (List.mem_cons_of_mem e hx)),
            fsGet_fsWrite_ne p (splitSlash e.1) _ fs
              (hp e (List.mem_cons_self e rest))]

/-- After a completed S3 download loop, every listed key with no local
record holds the downloaded bytes at its split path. -/
theorem s3DownloadLoop_bytes (flts : S3Faults) (r : S3Remote)
    (localKeys : List String) (listing : List (String × String))
    (hnd : (listing.map (fun e => splitSlash e.1)).Nodup) :
    ∀ fs d fs', s3DownloadLoop flts r localKeys listing fs = .ok (d, fs') →
      ∀ e ∈ listing, localKeys.contains e.1 = false →
        fsGet (splitSlash e.1) fs' = some ((s3Get e.1 r.objects).getD []) := by
  induction listing with
  | nil => intro fs d fs' _ e he; cases he
  | cons e0 rest ih =>
    intro fs d fs' hr e he hcf
    rw [List.map_cons, List.nodup_cons] at hnd
    rw [s3DownloadLoop] at hr
    by_cases hc : localKeys.contains e0.1 = true
    · rw [if_pos hc] at hr
      rcases List.mem_cons.mp he with he | he
      · rw [he] at hcf; rw [hc] at hcf; cases hcf
      · exact ih hnd.2 _ _ _ hr e he hcf
    · rw [if_neg hc] at hr
      cases hgf : flts.getFail e0.1 with
      | some err => rw [hgf] at hr; cases hr
      | none =>
        rw [hgf] at hr
        cases hrec : s3DownloadLoop flts r localKeys rest
            (fsWrite (splitSlash e0.1) ((s3Get e0.1 r.objects).getD []) fs) with
        | error err => rw [hrec] at hr; cases hr
        | ok pr =>
          rw [hrec] at hr
          obtain ⟨n, fs2⟩ := pr
          obtain ⟨-, h2⟩ := ok_pair_eq hr
          rcases List.mem_cons.mp he with he | he
          · rw [he, ← h2,
              s3DownloadLoop_preserves flts r localKeys rest _ _ _ hrec _
                (fun x hx hcontra =>
                  hnd.1 (by
                    rw [← hcontra]
                    exact List.mem_map_of_mem (fun y => splitSlash y.1) hx)),
              fsGet_fsWrite_self]
          · rw [← h2]
            exact ih hnd.2 _ _ _ hrec e he hcf

/-- A completed S3 download loop had no `get_object` failure on any listed
key it decided to download. -/
theorem s3DownloadLoop_no_get_failure (flts : S3Faults) (r : S3Remote)
    (localKeys : List String) (listing : List (String × String)) :
    ∀ fs d fs', s3DownloadLoop flts r localKeys listing fs = .ok (d, fs') →
      ∀ e ∈ listing, localKeys.contains e.1 = false → flts.getFail e.1 = none := by
  induction listing with
  | nil => intro fs d fs' _ e he; cases he
  | cons e0 rest ih =>
    intro fs d fs' hr e he hcf
    rw [s3DownloadLoop] at hr
    by_cases hc : localKeys.contains e0.1 = true
    · rw [if_pos hc] at hr
      rcases List.mem_cons.mp he with he | he
      · rw [he] at hcf; rw [hc] at hcf; cases hcf
      · exact ih _ _ _ hr e he hcf
    · rw [if_neg hc] at hr
      cases hgf : flts.getFail e0.1 with
      | some err => rw [hgf] at hr; cases hr
      | none =>
        rw [hgf] at hr
        cases hrec : s3DownloadLoop flts r localKeys rest
            (fsWrite (splitSlash e0.1) ((s3Get e0.1 r.objects).getD []) fs) with
        | error err => rw [hrec] at hr; cases hr
        | ok pr =>
          rcases List.mem_cons.mp he with he | he
          · rw [he]; exact hgf
          · exact ih _ _ _ hrec e he hcf

/-- Elimination form of a successful S3 sync run. -/
theorem sync_to_s3_ok_elim (h etagOf : ByteSeq → String) (flts : S3Faults)
    (fs : LocalFS) (r : S3Remote) (st : SyncStatus) (fs' : LocalFS) (r' : S3Remote)
    (hok : sync_to_s3 h etagOf flts fs r = .ok (st, fs', r')) :
    flts.listFail = none ∧ ∃ u d,
      s3UploadLoop h etagOf flts (r.objects.map (fun o => (o.key, o.etag)))
        (scanFiles fs) r = .ok (u, r') ∧
      s3DownloadLoop flts r' ((scanFiles fs).map (fun f => joinSlash f.1))
        (r.objects.map (fun o => (o.key, o.etag))) fs = .ok (d, fs') ∧
      st.files_uploaded = u ∧ st.files_downloaded = d := by
  rw [sync_to_s3] at hok
  cases hl : flts.listFail with
  | some e => rw [hl] at hok; cases hok
  | none =>
    rw [hl] at hok
    dsimp only at hok
    cases hu : s3UploadLoop h etagOf flts (r.objects.map (fun o => (o.key, o.etag)))
        (scanFiles fs) r with
    | error e => rw [hu] at hok; cases hok
    | ok pr =>
      obtain ⟨u, r2⟩ := pr
      rw [hu] at hok
      dsimp only at hok
      cases hd : s3DownloadLoop flts r2 ((scanFiles fs).map (fun f => joinSlash f.1))
          (r.objects.map (fun o => (o.key, o.etag))) fs with
      | error e => rw [hd] at hok; cases hok
      | ok pr2 =>
        obtain ⟨d, fs2⟩ := pr2
        rw [hd] at hok
        dsimp only at hok
        rw [Except.ok.injEq, Prod.mk.injEq, Prod.mk.injEq] at hok
        obtain ⟨hst, hfs, hr⟩ := hok
        subst hfs; subst hr
        exact ⟨rfl, u, d, rfl, hd, by rw [← hst], by rw [← hst]⟩

/-! ## Claim theorems -/

/-- C9: `save_sync_config` followed by `load_sync_config` on the same root
returns `Some` of a config equal in all four fields (provider, enabled,
credentials, last_sync) to the config that was saved, for every config value
and every root path. -/
theorem save_load_sync_config_roundtrip (fs : ConfigFS) (base : RelPath) (c : SyncConfig) :
    load_sync_config (save_sync_config fs base c) base = .ok (some c) := by
  obtain ⟨p, e, cred, ls⟩ := c
  rw [load_sync_config, save_sync_config, cfgGet, if_pos rfl]
  cases ls <;> simp [encodeSyncConfig, decodeSyncConfig, jsonField]

/-- C8: `resolve_conflict` with a resolution string that is none of
`keep_local`, `keep_remote`, `keep_both` fails with the invalid-argument
error and leaves the filesystem completely unchanged, whatever the base
tree and target path. -/
theorem resolve_conflict_invalid (fs : LocalFS) (res : ConflictResolution)
    (h1 : res.resolution ≠ "keep_local") (h2 : res.resolution ≠ "keep_remote")
    (h3 : res.resolution ≠ "keep_both") :
    resolve_conflict fs res = (fs, .error "Invalid resolution type") := by
  unfold resolve_conflict
  split <;> simp_all

/-- Witness for `resolve_conflict_invalid` at a concrete tree and the
unrecognized resolution string `"merge"`. -/
theorem resolve_conflict_invalid_witness :
    resolve_conflict [(["note.md"], [1])] ⟨["note.md"], "merge"⟩ =
      ([(["note.md"], [1])], .error "Invalid resolution type") :=
  resolve_conflict_invalid _ _ (by decide) (by decide) (by decide)

/-- C2 counterexample: the local manifest built by a sync run does NOT
exclude paths under hidden directories — the walk only tests the file's own
name, so `.git/config` (last component `config`) is included. -/
theorem manifest_includes_git_config :
    (".git/config", "H") ∈ localManifest (fun _ => "H") [([".git", "config"], [1])] := by
  decide

/-- C2 (amended): the scan excludes a file iff the file's OWN name starts
with `'.'` — only the final path component is tested.  Files under hidden
directories (such as `.git/config`) and `name.conflict` sidecars are
included; `.sync_config.json` is excluded because its own name is hidden.
Every scanned file contributes its manifest record. -/
theorem scan_excludes_only_hidden_filenames (h : ByteSeq → String) (fs : LocalFS)
    (f : RelPath × ByteSeq) :
    (f ∈ scanFiles fs ↔ f ∈ fs ∧ hiddenFile f.1 = false) ∧
    (f ∈ scanFiles fs → (joinSlash f.1, h f.2) ∈ localManifest h fs) :=
  ⟨mem_scanFiles_iff fs f, fun hm => List.mem_map_of_mem _ hm⟩

/-- Witness for `scan_excludes_only_hidden_filenames`: a non-hidden file's
record is in the manifest of a concrete tree. -/
theorem scan_excludes_only_hidden_filenames_witness :
    ("a.md", "H") ∈ localManifest (fun _ => "H") [(["a.md"], [7]), ([".x"], [8])] :=
  (scan_excludes_only_hidden_filenames (fun _ => "H")
    [(["a.md"], [7]), ([".x"], [8])] (["a.md"], [7])).2 (by decide)

/-- C7: for a conflicted file `dir/name` (with stem/extension split
`stem.ext`) whose sidecar `dir/stem.conflict` exists: `keep_both` renames
the sidecar to `stem_conflict.ext` beside the original, leaving exactly the
two files `name` and `stem_conflict.ext` with the sidecar gone; `keep_local`
deletes the sidecar leaving the original untouched; `keep_remote` renames
the sidecar over the original file. -/
theorem resolve_conflict_resolutions
    (dir : RelPath) (name stem ext : String) (b1 b2 : ByteSeq)
    (hsplit : splitName name = (stem, some ext))
    (h1 : stem ++ ".conflict" ≠ name)
    (h2 : stem ++ "_conflict." ++ ext ≠ name) :
    (resolve_conflict [(dir ++ [name], b1), (dir ++ [stem ++ ".conflict"], b2)]
        ⟨dir ++ [name], "keep_both"⟩ =
      ([(dir ++ [stem ++ "_conflict." ++ ext], b2), (dir ++ [name], b1)], .ok ())) ∧
    (resolve_conflict [(dir ++ [name], b1), (dir ++ [stem ++ ".conflict"], b2)]
        ⟨dir ++ [name], "keep_local"⟩ = ([(dir ++ [name], b1)], .ok ())) ∧
    (resolve_conflict [(dir ++ [name], b1), (dir ++ [stem ++ ".conflict"], b2)]
        ⟨dir ++ [name], "keep_remote"⟩ = ([(dir ++ [name], b2)], .ok ())) := by
  have hside : conflictName name = stem ++ ".conflict" := by
    rw [conflictName, hsplit]
  have hboth : keepBothName name = stem ++ "_conflict." ++ ext := by
    rw [keepBothName, hsplit]; rfl
  refine ⟨?_, ?_, ?_⟩ <;>
    simp [resolve_conflict, lastName_append, withLastName_append, hside, hboth,
      fsExists, fsGet, fsRename, fsWrite, fsRemove, dropKey,
      append_singleton_eq_iff, h1, h2, Ne.symm h1, Ne.symm h2]

/-- Witness for `resolve_conflict_resolutions` at the concrete conflicted
file `note.md` with sidecar `note.conflict`. -/
theorem resolve_conflict_resolutions_witness :
    (resolve_conflict [(["note.md"], [1]), (["note.conflict"], [2])]
        ⟨["note.md"], "keep_both"⟩ =
      ([(["note_conflict.md"], [2]), (["note.md"], [1])], .ok ())) ∧
    (resolve_conflict [(["note.md"], [1]), (["note.conflict"], [2])]
        ⟨["note.md"], "keep_local"⟩ = ([(["note.md"], [1])], .ok ())) ∧
    (resolve_conflict [(["note.md"], [1]), (["note.conflict"], [2])]
        ⟨["note.md"], "keep_remote"⟩ = ([(["note.md"], [2])], .ok ())) :=
  resolve_conflict_resolutions [] "note.md" "note" "md" [1] [2]
    (by decide) (by decide) (by decide)

/-- C10: every `SyncStatus` any of the four provider sync operations returns
(rather than an error) has `success = true` and an empty conflicts sequence —
no code path ever constructs or flags a `SyncConflict`. -/
theorem sync_outcomes_success_no_conflicts :
    (∀ (h etagOf : ByteSeq → String) (flts : S3Faults) (fs : LocalFS) (r : S3Remote)
        (st : SyncStatus) (fs' : LocalFS) (r' : S3Remote),
        sync_to_s3 h etagOf flts fs r = .ok (st, fs', r') →
        st.success = true ∧ st.conflicts = []) ∧
    (∀ (flts : DropboxFaults) (fs : LocalFS) (r : DropboxRemote) (st : SyncStatus)
        (fs' : LocalFS) (r' : DropboxRemote),
        sync_to_dropbox flts fs r = .ok (st, fs', r') →
        st.success = true ∧ st.conflicts = []) ∧
    (∀ (flts : OneDriveFaults) (fs : LocalFS) (r : OneDriveRemote) (st : SyncStatus)
        (fs' : LocalFS) (r' : OneDriveRemote),
        sync_to_onedrive flts fs r = .ok (st, fs', r') →
        st.success = true ∧ st.conflicts = []) ∧
    (∀ (flts : GDriveFaults) (fs : LocalFS) (r : GDriveRemote) (st : SyncStatus)
        (r' : GDriveRemote),
        sync_to_google_drive flts fs r = .ok (st, r') →
        st.success = true ∧ st.conflicts = []) := by
  refine ⟨?_, ?_, ?_, ?_⟩
  · intro h etagOf flts fs r st fs' r' hok
    unfold sync_to_s3 at hok
    repeat' split at hok
    all_goals try cases hok
    all_goals exact ⟨rfl, rfl⟩
  · intro flts fs r st fs' r' hok
    unfold sync_to_dropbox at hok
    repeat' split at hok
    all_goals try cases hok
    all_goals exact ⟨rfl, rfl⟩
  · intro flts fs r st fs' r' hok
    unfold sync_to_onedrive at hok
    repeat' split at hok
    all_goals try cases hok
    all_goals exact ⟨rfl, rfl⟩
  · intro flts fs r st r' hok
    unfold sync_to_google_drive at hok
    repeat' split at hok
    all_goals try cases hok
    all_goals exact ⟨rfl, rfl⟩

/-- C1 counterexample: reconciliation is NOT idempotent.  A fault-free
Dropbox run over the one-file tree `a.md` uploads it and ends with local and
remote in agreement; running the sync again on exactly that resulting state
(no intervening local or remote change) re-uploads the file, so the second
run reports `files_uploaded = 1`, not `0`. -/
theorem dropbox_rerun_counterexample :
    sync_to_dropbox dbNoFaults [(["a.md"], [7])] ⟨[]⟩ =
      .ok ({ success := true,
             message := "Dropbox sync complete: 1 uploaded, 0 downloaded",
             files_uploaded := 1, files_downloaded := 0, conflicts := [] },
           [(["a.md"], [7])], ⟨[("/Azimuth/a.md", [7])]⟩) ∧
    sync_to_dropbox dbNoFaults [(["a.md"], [7])] ⟨[("/Azimuth/a.md", [7])]⟩ =
      .ok ({ success := true,
             message := "Dropbox sync complete: 1 uploaded, 0 downloaded",
             files_uploaded := 1, files_downloaded := 0, conflicts := [] },
           [(["a.md"], [7])], ⟨[("/Azimuth/a.md", [7])]⟩) :=
  ⟨rfl, rfl⟩

/-- C1 (amended): after a successful fault-free Dropbox run, a second run on
the resulting state (no intervening change) downloads nothing
(`files_downloaded = 0`) but does NOT upload nothing: it re-uploads every
file of the local manifest unconditionally, reporting `files_uploaded` equal
to the manifest size. -/
theorem dropbox_second_run_re_uploads
    (fs : LocalFS) (r : DropboxRemote) (hwf : ∀ f ∈ fs, wfPath f.1)
    (st1 : SyncStatus) (fs1 : LocalFS) (r1 : DropboxRemote)
    (h1 : sync_to_dropbox dbNoFaults fs r = .ok (st1, fs1, r1)) :
    ∃ r2, sync_to_dropbox dbNoFaults fs1 r1 =
      .ok ({ success := true,
             message := s!"Dropbox sync complete: {(scanFiles fs1).length} uploaded, {(0 : Nat)} downloaded",
             files_uploaded := (scanFiles fs1).length,
             files_downloaded := 0, conflicts := [] }, fs1, r2) := by
  obtain ⟨u1, d1, hu1, hd1, -, -⟩ :=
    sync_to_dropbox_ok_elim dbNoFaults fs r st1 fs1 r1 h1 rfl
  have hwf1 : ∀ f ∈ fs1, wfPath f.1 :=
    dbDownloadLoop_wf dbNoFaults r1 r1.files fs d1 fs1 hd1 hwf
  obtain ⟨r2, hu2⟩ := dbUploadLoop_noFaults (scanFiles fs1) r1
  have hall : ∀ e ∈ r2.files, fsExists (dbLocalPath e.1) fs1 = true := by
    intro e he
    rcases dbUploadLoop_origin dbNoFaults (scanFiles fs1) r1 _ r2 hu2 e he with
      hmem | ⟨f, hf, hfk⟩
    · exact dbDownloadLoop_all_exist r1 r1.files fs d1 fs1 hd1 e hmem
    · have hf1 : f ∈ fs1 := ((mem_scanFiles_iff fs1 f).mp hf).1
      rw [hfk, dbLocalPath_uploaded f.1 (hwf1 f hf1)]
      exact fsExists_of_mem f.1 f.2 fs1 hf1
  exact ⟨r2, sync_to_dropbox_ok_intro dbNoFaults fs1 r1 (scanFiles fs1).length r2 0 fs1
    hu2 rfl rfl (dbDownloadLoop_all_present dbNoFaults r2 r2.files fs1 hall)⟩

/-- Witness for `dropbox_second_run_re_uploads` at the one-file tree `a.md`
after its first sync against an initially empty remote. -/
theorem dropbox_second_run_re_uploads_witness :
    ∃ r2, sync_to_dropbox dbNoFaults [(["a.md"], [7])] ⟨[("/Azimuth/a.md", [7])]⟩ =
      .ok ({ success := true,
             message := "Dropbox sync complete: 1 uploaded, 0 downloaded",
             files_uploaded := 1,
             files_downloaded := 0, conflicts := [] }, [(["a.md"], [7])], r2) :=
  dropbox_second_run_re_uploads [(["a.md"], [7])] ⟨[]⟩ (by decide) _ _ _ (by rfl)

/-- C3 counterexample: the upload decision is NOT "upload iff no remote
record shares the path or the content tag differs".  A Dropbox run over
`b.md` whose remote already holds the identical bytes at `/Azimuth/b.md`
(so the content tag of the remote copy equals the local hash) still uploads
it: `files_uploaded = 1` where the claim demands `0`. -/
theorem dropbox_uploads_unchanged_file :
    sync_to_dropbox dbNoFaults [(["b.md"], [1, 2])] ⟨[("/Azimuth/b.md", [1, 2])]⟩ =
      .ok ({ success := true,
             message := "Dropbox sync complete: 1 uploaded, 0 downloaded",
             files_uploaded := 1, files_downloaded := 0, conflicts := [] },
           [(["b.md"], [1, 2])], ⟨[("/Azimuth/b.md", [1, 2])]⟩) := rfl

/-- C3 (amended): only S3 uploads by the stated decision — a manifest file
is uploaded iff its key is absent from the remote listing or the listed etag
differs from the local hash, and `files_uploaded` counts exactly those files
once each.  Dropbox uploads every walked file unconditionally:
`files_uploaded` is the size of the local manifest (when every upload
response has a success status). -/
theorem upload_decision_s3_dropbox :
    (∀ (h etagOf : ByteSeq → String) (flts : S3Faults) (fs : LocalFS) (r : S3Remote)
        (st : SyncStatus) (fs' : LocalFS) (r' : S3Remote),
        sync_to_s3 h etagOf flts fs r = .ok (st, fs', r') →
        st.files_uploaded =
          (scanFiles fs).countP
            (s3ShouldUpload h (r.objects.map (fun o => (o.key, o.etag))))) ∧
    (∀ (flts : DropboxFaults) (fs : LocalFS) (r : DropboxRemote)
        (st : SyncStatus) (fs' : LocalFS) (r' : DropboxRemote),
        (∀ p, flts.upOk p = true) →
        sync_to_dropbox flts fs r = .ok (st, fs', r') →
        st.files_uploaded = (scanFiles fs).length) := by
  constructor
  · intro h etagOf flts fs r st fs' r' hok
    obtain ⟨-, u, d, hu, -, hstu, -⟩ := sync_to_s3_ok_elim h etagOf flts fs r st fs' r' hok
    rw [hstu]
    exact s3UploadLoop_count h etagOf flts _ (scanFiles fs) _ _ _ hu
  · intro flts fs r st fs' r' hok hsync
    obtain ⟨-, u, hu, hstu⟩ := sync_to_dropbox_ok_upload flts fs r st fs' r' hsync
    rw [hstu]
    exact dbUploadLoop_count flts hok (scanFiles fs) _ _ _ hu

/-- Witness for `upload_decision_s3_dropbox`: a concrete fault-free S3 run
uploading the one local file absent from the (empty) remote listing. -/
theorem upload_decision_s3_dropbox_witness :
    (1 : Nat) = (scanFiles [(["a.md"], [7])]).countP
      (s3ShouldUpload (fun _ => "H")
        ((⟨[]⟩ : S3Remote).objects.map (fun o => (o.key, o.etag)))) :=
  upload_decision_s3_dropbox.1 (fun _ => "H") (fun _ => "E") s3NoFaults
    [(["a.md"], [7])] ⟨[]⟩
    { success := true, message := "Sync complete: 1 uploaded, 0 downloaded",
      files_uploaded := 1, files_downloaded := 0, conflicts := [] }
    [(["a.md"], [7])] ⟨[⟨"a.md", "E", [7]⟩]⟩ (by rfl)

/-- C4 counterexample: a remote record with no corresponding local record is
NOT always downloaded.  The local tree holds only the hidden file `.secret`
(so the local manifest is empty and the remote record `/Azimuth/.secret` has
no local record), yet the Dropbox run downloads nothing because a file
exists on disk at the target path: `files_downloaded = 0` and the local
bytes stay `[1]`, not the remote `[9]`. -/
theorem dropbox_hidden_remote_not_downloaded :
    sync_to_dropbox dbNoFaults [([".secret"], [1])] ⟨[("/Azimuth/.secret", [9])]⟩ =
      .ok ({ success := true,
             message := "Dropbox sync complete: 0 uploaded, 0 downloaded",
             files_uploaded := 0, files_downloaded := 0, conflicts := [] },
           [([".secret"], [1])], ⟨[("/Azimuth/.secret", [9])]⟩) ∧
    localManifest (fun _ => "H") [([".secret"], [1])] = [] :=
  ⟨rfl, rfl⟩

/-- C4 (amended): for S3 the claim holds as stated — every listed key with
no local manifest record is downloaded (parent directories created), counted
once each, and the resulting local bytes equal the remote object's bytes.
For Dropbox the test is existence on disk, not manifest membership: a listed
entry is downloaded iff no file exists at its local path, so a remote record
whose local path holds a hidden (unscanned) file is skipped. -/
theorem download_semantics_s3_dropbox :
    (∀ (h etagOf : ByteSeq → String) (flts : S3Faults) (fs : LocalFS) (r : S3Remote)
        (st : SyncStatus) (fs' : LocalFS) (r' : S3Remote),
        sync_to_s3 h etagOf flts fs r = .ok (st, fs', r') →
        (r.objects.map (fun o => o.key)).Nodup →
        st.files_downloaded =
          (r.objects.map (fun o => (o.key, o.etag))).countP
            (fun e => !(((scanFiles fs).map (fun f => joinSlash f.1)).contains e.1)) ∧
        ∀ o ∈ r.objects,
          ((scanFiles fs).map (fun f => joinSlash f.1)).contains o.key = false →
          fsGet (splitSlash o.key) fs' = some o.bytes) ∧
    (∀ (r : DropboxRemote) (listing : List (String × ByteSeq)) (fs : LocalFS)
        (d : Nat) (fs' : LocalFS),
        (listing.map (fun e => dbLocalPath e.1)).Nodup →
        dbDownloadLoop dbNoFaults r listing fs = .ok (d, fs') →
        d = listing.countP (fun e => !(fsExists (dbLocalPath e.1) fs))) := by
  constructor
  · intro h etagOf flts fs r st fs' r' hok hnd
    obtain ⟨-, u, d, hu, hd, -, hstd⟩ := sync_to_s3_ok_elim h etagOf flts fs r st fs' r' hok
    constructor
    · rw [hstd]
      exact s3DownloadLoop_count flts _ _ _ _ _ _ hd
    · intro o ho hcon
      have hmem : (o.key, o.etag) ∈ r.objects.map (fun o => (o.key, o.etag)) :=
        List.mem_map_of_mem _ ho
      have hndp : ((r.objects.map (fun o => (o.key, o.etag))).map
          (fun e => splitSlash e.1)).Nodup := by
        have h2 : ((r.objects.map (fun o => o.key)).map splitSlash).Nodup :=
          hnd.map (fun a b hab => splitSlash_injective hab)
        rw [List.map_map] at h2
        rw [List.map_map]
        exact h2
      have hbytes := s3DownloadLoop_bytes flts r'
        ((scanFiles fs).map (fun f => joinSlash f.1))
        (r.objects.map (fun o => (o.key, o.etag))) hndp fs d fs' hd
        (o.key, o.etag) hmem hcon
      have hpres := s3UploadLoop_preserves h etagOf flts
        (r.objects.map (fun o => (o.key, o.etag))) (scanFiles fs) r u r' hu o.key
        (fun f hf hc => by
          have h1 : ((scanFiles fs).map
              (fun g : RelPath × ByteSeq => joinSlash g.1)).contains o.key = true :=
            contains_true_of_mem (by
              rw [← hc]
              exact List.mem_map_of_mem (fun g : RelPath × ByteSeq => joinSlash g.1) hf)
          rw [h1] at hcon
          cases hcon)
      rw [hbytes, hpres, s3Get_of_mem r.objects hnd o ho]
      rfl
  · intro r listing fs d fs' hnd hdl
    exact dbDownloadLoop_count r listing hnd fs d fs' hdl

/-- Witness for `download_semantics_s3_dropbox`: a concrete fault-free S3
run downloading the one remote object missing locally. -/
theorem download_semantics_s3_dropbox_witness :
    ({ success := true, message := "Sync complete: 0 uploaded, 1 downloaded",
       files_uploaded := 0, files_downloaded := 1,
       conflicts := [] } : SyncStatus).files_downloaded =
      (([⟨"n.md", "E", [5]⟩] : List S3Object).map (fun o => (o.key, o.etag))).countP
        (fun e => !(((scanFiles ([] : LocalFS)).map (fun f => joinSlash f.1)).contains e.1)) ∧
    ∀ o ∈ ([⟨"n.md", "E", [5]⟩] : List S3Object),
      ((scanFiles ([] : LocalFS)).map (fun f => joinSlash f.1)).contains o.key = false →
      fsGet (splitSlash o.key) [(["n.md"], [5])] = some o.bytes :=
  download_semantics_s3_dropbox.1 (fun _ => "H") (fun _ => "E") s3NoFaults
    [] ⟨[⟨"n.md", "E", [5]⟩]⟩
    { success := true, message := "Sync complete: 0 uploaded, 1 downloaded",
      files_uploaded := 0, files_downloaded := 1, conflicts := [] }
    [(["n.md"], [5])] ⟨[⟨"n.md", "E", [5]⟩]⟩ (by rfl) (by decide)

/-- A Dropbox fault oracle in which transport always succeeds but every HTTP
response has a non-success status. -/
def dbAllStatusFail : DropboxFaults :=
  ⟨fun _ => none, fun _ => false, none, false, fun _ => none, fun _ => false⟩

/-- C5 counterexample: a non-2xx HTTP status does NOT abort the run.  With
every response carrying a failure status (upload of `a.md` and the folder
listing both non-2xx), the Dropbox run still completes and returns a
`SyncOutcome` with `success = true` — the failed upload is silently skipped
and the non-success listing merely skips the download phase. -/
theorem dropbox_status_failure_completes :
    sync_to_dropbox dbAllStatusFail [(["a.md"], [7])] ⟨[]⟩ =
      .ok ({ success := true,
             message := "Dropbox sync complete: 0 uploaded, 0 downloaded",
             files_uploaded := 0, files_downloaded := 0, conflicts := [] },
           [(["a.md"], [7])], ⟨[]⟩) := rfl

/-- C5 (amended): transport-level failures do abort: a completed run implies
no transport failure on the listing; for S3 (whose SDK surfaces any failed
response as an error) a completed run implies no failure on any attempted
upload or download, so any single transfer failure prevents a `SyncOutcome`.
For Dropbox only transport-level failures abort — a completed run implies no
transport failure on the listing or on any walked file's upload — while
non-2xx statuses are skipped (see the counterexample). -/
theorem abort_semantics_s3_dropbox :
    (∀ (h etagOf : ByteSeq → String) (flts : S3Faults) (fs : LocalFS) (r : S3Remote)
        (st : SyncStatus) (fs' : LocalFS) (r' : S3Remote),
        sync_to_s3 h etagOf flts fs r = .ok (st, fs', r') →
        flts.listFail = none ∧
        (∀ f ∈ scanFiles fs,
          s3ShouldUpload h (r.objects.map (fun o => (o.key, o.etag))) f = true →
          flts.putFail (joinSlash f.1) = none) ∧
        (∀ o ∈ r.objects,
          ((scanFiles fs).map (fun f => joinSlash f.1)).contains o.key = false →
          flts.getFail o.key = none)) ∧
    (∀ (flts : DropboxFaults) (fs : LocalFS) (r : DropboxRemote)
        (st : SyncStatus) (fs' : LocalFS) (r' : DropboxRemote),
        sync_to_dropbox flts fs r = .ok (st, fs', r') →
        flts.listFail = none ∧
        ∀ f ∈ scanFiles fs, flts.upFail ("/Azimuth/" ++ joinSlash f.1) = none) := by
  constructor
  · intro h etagOf flts fs r st fs' r' hok
    obtain ⟨hl, u, d, hu, hd, -, -⟩ := sync_to_s3_ok_elim h etagOf flts fs r st fs' r' hok
    refine ⟨hl, ?_, ?_⟩
    · exact s3UploadLoop_no_put_failure h etagOf flts _ (scanFiles fs) _ _ _ hu
    · intro o ho hcon
      exact s3DownloadLoop_no_get_failure flts r' _ _ fs d fs' hd
        (o.key, o.etag) (List.mem_map_of_mem _ ho) hcon
  · intro flts fs r st fs' r' hsync
    obtain ⟨hl, u, hu, -⟩ := sync_to_dropbox_ok_upload flts fs r st fs' r' hsync
    exact ⟨hl, dbUploadLoop_no_transport_failure flts (scanFiles fs) _ _ _ hu⟩

/-- Witness for `abort_semantics_s3_dropbox`: a concrete completed Dropbox
run had no transport failures. -/
theorem abort_semantics_s3_dropbox_witness :
    dbNoFaults.listFail = none ∧
    ∀ f ∈ scanFiles [(["a.md"], ([7] : ByteSeq))],
      dbNoFaults.upFail ("/Azimuth/" ++ joinSlash f.1) = none :=
  abort_semantics_s3_dropbox.2 dbNoFaults [(["a.md"], [7])] ⟨[]⟩
    { success := true, message := "Dropbox sync complete: 1 uploaded, 0 downloaded",
      files_uploaded := 1, files_downloaded := 0, conflicts := [] }
    [(["a.md"], [7])] ⟨[("/Azimuth/a.md", [7])]⟩ (by rfl)

/-- C6: every Google Drive sync run that returns an outcome reports
`files_downloaded = 0` (no download path exists for this provider), and
every file it adds to the remote comes from a non-hidden regular file in the
immediate top level of the sync root (single-component relative path) —
never from a subdirectory. -/
theorem gdrive_no_downloads_top_level_only (flts : GDriveFaults) (fs : LocalFS)
    (r : GDriveRemote) (st : SyncStatus) (r' : GDriveRemote)
    (hok : sync_to_google_drive flts fs r = .ok (st, r')) :
    st.files_downloaded = 0 ∧
    ∀ e ∈ r', e ∈ r ∨
      ∃ f, f ∈ fs ∧ f.1.length = 1 ∧ hiddenFile f.1 = false ∧
        e = (lastName f.1, f.2) := by
  obtain ⟨hd0, u, hu⟩ := sync_to_google_drive_ok_elim flts fs r st r' hok
  refine ⟨hd0, ?_⟩
  intro e he
  rcases gdUploadLoop_origin flts (scanTopLevel fs) r u r' hu e he with hmem | ⟨f, hf, hek⟩
  · exact Or.inl hmem
  · obtain ⟨h1, h2, h3⟩ := mem_scanTopLevel fs f hf
    exact Or.inr ⟨f, h1, h2, h3, hek⟩

/-- Witness for `gdrive_no_downloads_top_level_only`: a concrete fault-free
run over a tree with one top-level file and one file in a subdirectory. -/
theorem gdrive_no_downloads_top_level_only_witness :
    ({ success := true,
       message := "Google Drive sync complete: 1 uploaded, 0 downloaded",
       files_uploaded := 1, files_downloaded := 0,
       conflicts := [] } : SyncStatus).files_downloaded = 0 ∧
    ∀ e ∈ [("x.md", ([1] : ByteSeq))], e ∈ ([] : GDriveRemote) ∨
      ∃ f, f ∈ [(["x.md"], ([1] : ByteSeq)), (["sub", "y.md"], [2])] ∧
        f.1.length = 1 ∧ hiddenFile f.1 = false ∧ e = (lastName f.1, f.2) :=
  gdrive_no_downloads_top_level_only gdNoFaults
    [(["x.md"], [1]), (["sub", "y.md"], [2])] [] _ _ (by rfl)

/-- Witness for `sync_outcomes_success_no_conflicts`: a concrete fault-free
Google Drive run over an empty tree. -/
theorem sync_outcomes_success_no_conflicts_witness :
    ({ success := true,
       message := "Google Drive sync complete: 0 uploaded, 0 downloaded",
       files_uploaded := 0, files_downloaded := 0,
       conflicts := [] } : SyncStatus).success = true ∧
    ({ success := true,
       message := "Google Drive sync complete: 0 uploaded, 0 downloaded",
       files_uploaded := 0, files_downloaded := 0,
       conflicts := [] } : SyncStatus).conflicts = [] :=
  sync_outcomes_success_no_conflicts.2.2.2 gdNoFaults [] [] _ [] (by rfl)

end Azimuth
